import Mathlib

/-!
Shallow Lean embedding of the print-job execution core of the
CrealityTech/klipper host software, covering the modules
`klippy/extras/virtual_sdcard.py`, `klippy/extras/pause_resume.py` and
`klippy/extras/print_stats.py`.

Conventions used throughout:
 - Python text is modelled as `List Char`; file contents are character
   lists and byte/character positions are `Nat` indices into them.
 - Python floats are modelled as `ℚ`; `int()` truncation toward zero is
   `pytrunc`; the float() string conversion is `pyFloat` (plain decimal
   grammar, exponent and special forms are outside the inputs this
   program feeds it and are mapped to `none`).
 - External collaborators (reactor, g-code dispatcher, toolhead, the
   mcu serial name, the on-disk config files) are inputs: per-call
   oracles in an environment record.  Filesystem side effects that the
   claims talk about (the two checkpoint files, the persisted lifetime
   counter) are explicit state; other side effects (video rendering,
   os.system calls, logging) are recorded as trace events.
-/

namespace Klippy

/-- Truncation toward zero, the behaviour of the Python builtin int() on
a float value. -/
def pytrunc (q : ℚ) : Int := if 0 ≤ q then ⌊q⌋ else ⌈q⌉

/-- Character list of a string literal. -/
def lchars (s : String) : List Char := s.data

/-- Helper for `splitOnChar`. -/
def splitOnCharAux (c : Char) : List Char → List Char → List (List Char)
  | [], acc => [acc.reverse]
  | x :: xs, acc =>
    if x = c then acc.reverse :: splitOnCharAux c xs []
    else splitOnCharAux c xs (x :: acc)

/-- Python str.split(sep) with a one-character separator: splits at every
occurrence, keeping empty pieces. -/
def splitOnChar (c : Char) (l : List Char) : List (List Char) :=
  splitOnCharAux c l []

/-- Python s.split(c)[0]: the prefix of `l` before the first occurrence
of `c` (all of `l` when `c` does not occur). -/
def takeUntilChar (c : Char) (l : List Char) : List Char :=
  l.takeWhile (fun x => x ≠ c)

/-- Strip the characters satisfying `p` from both ends, as Python
str.strip does. -/
def stripBoth (p : Char → Bool) (l : List Char) : List Char :=
  ((l.dropWhile p).reverse.dropWhile p).reverse

/-- The whitespace class stripped by Python float()/int()/str.strip(). -/
def isPyWS (c : Char) : Bool :=
  c = ' ' || c = '\n' || c = '\r' || c = '\t' || c = '\x0b' || c = '\x0c'

/-- Python startswith for character lists. -/
def startsWith (p l : List Char) : Bool := List.isPrefixOf p l

/-- Decimal digit test. -/
def isDigitCh (c : Char) : Bool := '0' ≤ c && c ≤ '9'

/-- Numeric value of a digit list (most significant first). -/
def digitsVal (l : List Char) : ℕ :=
  l.foldl (fun a c => a * 10 + (c.toNat - 48)) 0

/-- Model of the Python float() string conversion on the plain decimal
grammar `[ws][sign] digits [. digits] [ws]` that the scanned g-code
feeds it; other forms (exponents, inf/nan) yield `none`. -/
def pyFloat (l : List Char) : Option ℚ :=
  let t := stripBoth isPyWS l
  let st : ℚ × List Char :=
    match t with
    | '-' :: r => (-1, r)
    | '+' :: r => (1, r)
    | _ => (1, t)
  match splitOnChar '.' st.2 with
  | [ip] =>
    if ip ≠ [] && ip.all isDigitCh then some (st.1 * digitsVal ip) else none
  | [ip, fp] =>
    if (ip ≠ [] || fp ≠ []) && ip.all isDigitCh && fp.all isDigitCh then
      some (st.1 * ((digitsVal ip : ℚ) + (digitsVal fp : ℚ) / (10 ^ fp.length)))
    else none
  | _ => none

/-- Rendering of a float by Python "%s" formatting, for the g-code
command strings the program builds.  Faithful on values with a finite
decimal expansion (the only ones the program prints). -/
def pyFloatRepr (q : ℚ) : String :=
  if q.den = 1 then toString q.num ++ ".0"
  else
    match (List.range 31).find? (fun k => (10 : ℤ) ^ k % (q.den : ℤ) = 0) with
    | some k =>
      let n : ℤ := q.num * ((10 : ℤ) ^ k / (q.den : ℤ))
      let a : ℕ := n.natAbs
      let fracStr := toString (a % 10 ^ k)
      let pad := String.mk (List.replicate (k - fracStr.length) '0')
      (if q.num < 0 then "-" else "") ++ toString (a / 10 ^ k) ++ "." ++ pad ++ fracStr
    | none => toString q

/-!  ## Print Stats (`klippy/extras/print_stats.py`)

State of one `PrintStats` object together with the persisted lifetime
counter file `<root>/printer<i>_totaltime`, whose integer content is the
field `totaltime_file` (`none` models an absent or unreadable file, read
as 0 by `get_last_total_print_time`). -/

namespace PS

/-- The fields of the PrintStats object (names follow the source), plus
the persisted counter file content. -/
structure State where
  filename : String
  error_message : String
  state : String
  prev_pause_duration : ℚ
  last_epos : ℚ
  filament_used : ℚ
  total_duration : ℚ
  init_duration : ℚ
  print_start_time : Option ℚ
  last_pause_time : Option ℚ
  last_new_total_print_time : ℚ
  last_total_print_time : ℚ
  new_total_print_time : ℚ
  print_duration : ℚ
  totaltime_file : Option Int
deriving DecidableEq, Repr

/-- PrintStats.get_last_total_print_time: int content of the counter
file, 0 when absent/unreadable. -/
def get_last_total_print_time (s : State) : Int := s.totaltime_file.getD 0

/-- PrintStats.set_total_print_time: writes str(int(q)) to the counter
file. -/
def set_total_print_time (s : State) (q : ℚ) : State :=
  { s with totaltime_file := some (pytrunc q) }

/-- PrintStats.reset. -/
def reset (s : State) : State :=
  { s with filename := "", error_message := "", state := "standby",
           prev_pause_duration := 0, last_epos := 0, filament_used := 0,
           total_duration := 0, print_start_time := none,
           last_pause_time := none, init_duration := 0 }

/-- PrintStats.__init__ given the counter file content: reset, then read
the persisted total into the three total-print-time fields. -/
def init (file : Option Int) : State :=
  let s0 : State :=
    { filename := "", error_message := "", state := "standby",
      prev_pause_duration := 0, last_epos := 0, filament_used := 0,
      total_duration := 0, init_duration := 0, print_start_time := none,
      last_pause_time := none, last_new_total_print_time := 0,
      last_total_print_time := 0, new_total_print_time := 0,
      print_duration := 0, totaltime_file := file }
  let s1 := reset s0
  let f : ℚ := (get_last_total_print_time s1 : ℚ)
  { s1 with last_new_total_print_time := f, last_total_print_time := f,
            new_total_print_time := f, print_duration := 0 }

/-- PrintStats._update_filament_usage, with the gcode_move position and
extrude factor supplied as inputs. -/
def update_filament_usage (epos efactor : ℚ) (s : State) : State :=
  { s with filament_used := s.filament_used + (epos - s.last_epos) / efactor,
           last_epos := epos }

/-- PrintStats.set_current_file. -/
def set_current_file (name : String) (s : State) : State :=
  { reset s with filename := name }

/-- Content of the `<serial>_print_file_name.save` JSON sidecar as far
as note_start reads it. -/
structure Info where
  filament_used : ℚ
  last_print_duration : Option ℚ
deriving DecidableEq, Repr

/-- PrintStats.note_start.  `now` is reactor.monotonic(), `epos` the
gcode_move extruder position, `info` the parsed sidecar when the
info_path file exists and parses (`none` otherwise). -/
def note_start (now epos : ℚ) (info : Option Info) (s : State) : State :=
  let s1 :=
    match info with
    | some i => { s with filament_used := i.filament_used }
    | none => s
  let s2 := { s1 with last_epos := epos }
  let s3 :=
    match s2.print_start_time with
    | none =>
      match info with
      | some i =>
        match i.last_print_duration with
        | some d =>
          if d ≠ 0 then
            { s2 with print_start_time := some (now - (pytrunc d : ℚ)) }
          else { s2 with print_start_time := some now }
        | none => { s2 with print_start_time := some now }
      | none => { s2 with print_start_time := some now }
    | some _ =>
      match s2.last_pause_time with
      | some lp =>
        { s2 with prev_pause_duration := s2.prev_pause_duration + (now - lp),
                  last_pause_time := none }
      | none => s2
  let f : ℚ := (get_last_total_print_time s3 : ℚ)
  { s3 with state := "printing", error_message := "",
            last_new_total_print_time := f, last_total_print_time := f,
            new_total_print_time := f }

/-- PrintStats.note_pause. -/
def note_pause (now epos efactor : ℚ) (s : State) : State :=
  let s1 :=
    match s.last_pause_time with
    | none => update_filament_usage epos efactor { s with last_pause_time := some now }
    | some _ => s
  if s1.state ≠ "error" then { s1 with state := "paused" } else s1

/-- PrintStats._note_finish. -/
def note_finish (st : String) (msg : String) (now : ℚ) (s : State) : State :=
  match s.print_start_time with
  | none => s
  | some t0 =>
    let s1 := { s with state := st, error_message := msg,
                       total_duration := now - t0 }
    let s2 :=
      if s1.filament_used < (1 : ℚ) / 10000000 then
        { s1 with init_duration := s1.total_duration - s1.prev_pause_duration }
      else s1
    { s2 with print_start_time := none }

/-- PrintStats.note_complete. -/
def note_complete (now : ℚ) (s : State) : State := note_finish "complete" "" now s

/-- PrintStats.note_error. -/
def note_error (msg : String) (now : ℚ) (s : State) : State :=
  note_finish "error" msg now s

/-- PrintStats.note_cancel. -/
def note_cancel (now : ℚ) (s : State) : State := note_finish "cancelled" "" now s

/-- One get_status input: eventtime, gcode_move extruder position and
extrude factor. -/
structure In where
  now : ℚ
  epos : ℚ
  efactor : ℚ
deriving DecidableEq, Repr

/-- The time_paused local of get_status. -/
def time_paused (i : In) (s : State) : ℚ :=
  s.prev_pause_duration +
    (match s.print_start_time, s.last_pause_time with
     | some _, some lp => i.now - lp
     | _, _ => 0)

/-- The state after the duration/filament bookkeeping of get_status,
before the lifetime-counter update. -/
def status_track (i : In) (s : State) : State :=
  match s.print_start_time with
  | none => s
  | some t0 =>
    let s1 :=
      match s.last_pause_time with
      | some _ => s
      | none => update_filament_usage i.epos i.efactor s
    let s2 := { s1 with total_duration := i.now - t0 }
    if s2.filament_used < (1 : ℚ) / 10000000 then
      { s2 with init_duration := s2.total_duration - time_paused i s }
    else s2

/-- The print_duration value computed inside get_status. -/
def status_pd (i : In) (s : State) : ℚ :=
  let s2 := status_track i s
  s2.total_duration - s2.init_duration - time_paused i s

/-- The new_total_print_time value computed inside get_status. -/
def status_newtotal (i : In) (s : State) : ℚ :=
  status_pd i s / 60 + (status_track i s).last_total_print_time

/-- PrintStats.get_status: duration/filament tracking followed by the
persisted lifetime-counter update; on a write, set_total_print_time
stores str(int(new_total_print_time)) and last_new_total_print_time is
advanced to the new float value. -/
def get_status (i : In) (s : State) : State :=
  if status_newtotal i s > (status_track i s).last_new_total_print_time then
    { status_track i s with
        print_duration := status_pd i s,
        new_total_print_time := status_newtotal i s,
        last_new_total_print_time := status_newtotal i s,
        totaltime_file := some (pytrunc (status_newtotal i s)) }
  else
    { status_track i s with
        print_duration := status_pd i s,
        new_total_print_time := status_newtotal i s }

/-- Integer value currently stored in the lifetime-counter file (0 when
the file is absent, matching what a subsequent read returns). -/
def fileVal (s : State) : Int := s.totaltime_file.getD 0

/-- A run of consecutive get_status calls. -/
def runStatus (s : State) : List In → State
  | [] => s
  | i :: r => runStatus (get_status i s) r

/-- Well-formedness used by the lifetime-counter claims: the persisted
total read at startup is non-negative, and the stored integer does not
exceed the last float value at which a persist happened. -/
def WFB (s : State) : Bool :=
  decide ((0 : ℚ) ≤ s.last_total_print_time) &&
  decide ((fileVal s : ℚ) ≤ s.last_new_total_print_time)

/-- Every get_status call in the run computes a non-negative
print_duration. -/
def pdOk (s : State) : List In → Bool
  | [] => true
  | i :: r => decide ((0 : ℚ) ≤ status_pd i s) && pdOk (get_status i s) r

end PS

theorem pytrunc_mono {a b : ℚ} (h : a ≤ b) : pytrunc a ≤ pytrunc b := by
  unfold pytrunc
  by_cases ha : (0 : ℚ) ≤ a
  · rw [if_pos ha, if_pos (le_trans ha h)]
    exact Int.floor_le_floor h
  · rw [if_neg ha]
    by_cases hb : (0 : ℚ) ≤ b
    · rw [if_pos hb]
      refine le_trans ?_ (Int.le_floor.mpr (by exact_mod_cast hb))
      exact Int.ceil_le.mpr (by exact_mod_cast le_of_lt (lt_of_not_le ha))
    · rw [if_neg hb]
      exact Int.ceil_le_ceil h

theorem le_pytrunc_of_int_le {k : Int} {q : ℚ} (h : (k : ℚ) ≤ q) :
    k ≤ pytrunc q := by
  unfold pytrunc
  by_cases hq : (0 : ℚ) ≤ q
  · rw [if_pos hq]; exact Int.le_floor.mpr h
  · rw [if_neg hq]
    exact_mod_cast le_trans h (Int.le_ceil q)

theorem pytrunc_le_of_nonneg {q : ℚ} (h : 0 ≤ q) : (pytrunc q : ℚ) ≤ q := by
  unfold pytrunc
  rw [if_pos h]
  exact Int.floor_le q

namespace PS

/-- One get_status call: the stored counter does not decrease, the
well-formedness is preserved, the base total is unchanged, and a write
only happens when the new total exceeds the stored value. -/
theorem get_status_counter_step (i : In) (s : State)
    (hwf : WFB s = true) (hpd : (0 : ℚ) ≤ status_pd i s) :
    fileVal s ≤ fileVal (get_status i s) ∧ WFB (get_status i s) = true ∧
    (get_status i s).last_total_print_time = s.last_total_print_time ∧
    ((get_status i s).totaltime_file ≠ s.totaltime_file →
      (get_status i s).new_total_print_time > (fileVal s : ℚ)) := by
  have hwf1 : (0 : ℚ) ≤ s.last_total_print_time ∧
      (fileVal s : ℚ) ≤ s.last_new_total_print_time := by
    unfold WFB at hwf
    simp only [Bool.and_eq_true, decide_eq_true_eq] at hwf
    exact hwf
  have htrack_lt : (status_track i s).last_total_print_time = s.last_total_print_time := by
    unfold status_track update_filament_usage
    cases s.print_start_time <;> cases s.last_pause_time <;> simp <;> split <;> rfl
  have htrack_lnt : (status_track i s).last_new_total_print_time
      = s.last_new_total_print_time := by
    unfold status_track update_filament_usage
    cases s.print_start_time <;> cases s.last_pause_time <;> simp <;> split <;> rfl
  have htrack_file : (status_track i s).totaltime_file = s.totaltime_file := by
    unfold status_track update_filament_usage
    cases s.print_start_time <;> cases s.last_pause_time <;> simp <;> split <;> rfl
  have hnt_nonneg : 0 ≤ status_newtotal i s := by
    unfold status_newtotal
    rw [htrack_lt]
    have h60 : (0 : ℚ) ≤ status_pd i s / 60 := by
      exact div_nonneg hpd (by norm_num)
    linarith [hwf1.1]
  unfold get_status
  split
  · rename_i hgt
    rw [htrack_lnt] at hgt
    refine ⟨?_, ?_, ?_, ?_⟩
    · unfold fileVal
      simp only [Option.getD_some]
      refine le_pytrunc_of_int_le (le_of_lt (lt_of_le_of_lt hwf1.2 hgt))
    · unfold WFB fileVal
      simp only [Bool.and_eq_true, decide_eq_true_eq, Option.getD_some]
      exact ⟨by rw [htrack_lt]; exact hwf1.1, pytrunc_le_of_nonneg hnt_nonneg⟩
    · exact htrack_lt
    · intro _
      exact lt_of_le_of_lt hwf1.2 hgt
  · refine ⟨?_, ?_, ?_, ?_⟩
    · unfold fileVal
      simp only [htrack_file]
      exact le_refl _
    · unfold WFB fileVal
      simp only [Bool.and_eq_true, decide_eq_true_eq, htrack_file, htrack_lt,
        htrack_lnt]
      exact ⟨hwf1.1, hwf1.2⟩
    · exact htrack_lt
    · intro hne
      exact absurd htrack_file hne

/-- C8 run-level helper: along any sequence of get_status calls with
non-negative print durations, the stored counter is monotone and
well-formedness is preserved. -/
theorem runStatus_counter (ins : List In) (s : State)
    (hwf : WFB s = true) (hpd : pdOk s ins = true) :
    fileVal s ≤ fileVal (runStatus s ins) ∧ WFB (runStatus s ins) = true := by
  induction ins generalizing s with
  | nil => exact ⟨le_refl _, hwf⟩
  | cons i r ih =>
    unfold pdOk at hpd
    simp only [Bool.and_eq_true, decide_eq_true_eq] at hpd
    have step := get_status_counter_step i s hwf hpd.1
    have rest := ih (get_status i s) step.2.1 hpd.2
    exact ⟨le_trans step.1 rest.1, rest.2⟩

theorem runStatus_append (l1 l2 : List In) (s : State) :
    runStatus s (l1 ++ l2) = runStatus (runStatus s l1) l2 := by
  induction l1 generalizing s with
  | nil => rfl
  | cons i r ih => exact ih (get_status i s)

theorem pdOk_split (l1 l2 : List In) (s : State)
    (hwf : WFB s = true) (hpd : pdOk s (l1 ++ l2) = true) :
    WFB (runStatus s l1) = true ∧ pdOk (runStatus s l1) l2 = true := by
  induction l1 generalizing s with
  | nil => exact ⟨hwf, hpd⟩
  | cons i r ih =>
    rw [List.cons_append] at hpd
    unfold pdOk at hpd
    simp only [Bool.and_eq_true, decide_eq_true_eq] at hpd
    have step := get_status_counter_step i s hwf hpd.1
    exact ih (get_status i s) step.2.1 hpd.2

end PS

/-- C8: the persisted lifetime counter `printer<index>_totaltime` is
written by get_status only when the newly computed new_total_print_time
exceeds the value currently stored, and the stored integer never
decreases across any sequence of get_status calls (hypotheses: the
persisted base is well formed — non-negative initial total, stored value
not above the last persisted float — and every computed print_duration
in the run is non-negative). -/
theorem C8_lifetime_counter_monotone (ins : List PS.In) (s : PS.State)
    (hwf : PS.WFB s = true) (hpd : PS.pdOk s ins = true) :
    (∀ pre i rest, ins = pre ++ i :: rest →
      PS.fileVal (PS.runStatus s pre) ≤
        PS.fileVal (PS.get_status i (PS.runStatus s pre)) ∧
      ((PS.get_status i (PS.runStatus s pre)).totaltime_file ≠
          (PS.runStatus s pre).totaltime_file →
        (PS.fileVal (PS.runStatus s pre) : ℚ) <
          PS.status_newtotal i (PS.runStatus s pre))) ∧
    PS.fileVal s ≤ PS.fileVal (PS.runStatus s ins) := by
  constructor
  · intro pre i rest hsplit
    subst hsplit
    obtain ⟨hwfp, hpdp⟩ := PS.pdOk_split pre (i :: rest) s hwf hpd
    unfold PS.pdOk at hpdp
    simp only [Bool.and_eq_true, decide_eq_true_eq] at hpdp
    have step := PS.get_status_counter_step i (PS.runStatus s pre) hwfp hpdp.1
    refine ⟨step.1, fun hne => ?_⟩
    have := step.2.2.2 hne
    have hfield : (PS.get_status i (PS.runStatus s pre)).new_total_print_time
        = PS.status_newtotal i (PS.runStatus s pre) := by
      unfold PS.get_status
      split <;> rfl
    rw [hfield] at this
    exact this
  · exact (PS.runStatus_counter ins s hwf hpd).1

/-!  ## Pause/Resume controller (`klippy/extras/pause_resume.py`)

The controller state is the three booleans of the PauseResume object;
`recover_velocity` is the configured default RESUME velocity.  Whether
the virtual-SD executor is active (`is_sd_active`) is an input to each
command.  Effects on collaborators (responses, run_script calls, calls
into the virtual-SD object) are returned as an output list. -/

namespace PR

/-- Effects a PauseResume command performs on its collaborators. -/
inductive Out
  | respond (s : String)
  | runScript (s : String)
  | sdDoPause
  | sdSetDoResumeStatus
  | sdDoResume
  | sdDoCancel
  | sdClearCancelPrintState
deriving DecidableEq, Repr

/-- PauseResume object state. -/
structure State where
  is_paused : Bool
  sd_paused : Bool
  pause_command_sent : Bool
  recover_velocity : ℚ
deriving DecidableEq, Repr

/-- PauseResume.__init__ (flags all false). -/
def init (rv : ℚ) : State :=
  { is_paused := false, sd_paused := false, pause_command_sent := false,
    recover_velocity := rv }

/-- The key211 already-paused response used by PAUSE and M600. -/
def key211 : String :=
  "\x7b\"code\":\"key211\", \"msg\": \"Print already paused\", \"values\": []\x7d"

/-- The key16 not-paused response used by RESUME. -/
def key16 : String :=
  "\x7b\"code\": \"key16\", \"msg\": \"Print is not paused, resume aborted\"\x7d"

/-- PauseResume.send_pause_command; `sd_active` is is_sd_active(). -/
def send_pause_command (sd_active : Bool) (s : State) : State × List Out :=
  if s.pause_command_sent then (s, [])
  else if sd_active then
    ({ s with sd_paused := true, pause_command_sent := true }, [.sdDoPause])
  else
    ({ s with sd_paused := false, pause_command_sent := true },
     [.respond "action:paused"])

/-- PauseResume.cmd_PAUSE. -/
def cmd_PAUSE (sd_active : Bool) (s : State) : State × List Out :=
  if s.is_paused then (s, [.respond key211])
  else
    let p := send_pause_command sd_active s
    ({ p.1 with is_paused := true },
     p.2 ++ [.runScript "SAVE_GCODE_STATE STATE=PAUSE_STATE"])

/-- PauseResume.send_resume_command. -/
def send_resume_command (s : State) : State × List Out :=
  if s.sd_paused then
    ({ s with sd_paused := false, pause_command_sent := false },
     [.sdSetDoResumeStatus, .sdDoResume])
  else
    ({ s with pause_command_sent := false }, [.respond "action:resumed"])

/-- Python "%.4f" formatting of the RESUME move speed (modelled with
round half up on the exact rational). -/
def pyFixed4 (q : ℚ) : String :=
  let n : ℤ := ⌊q * 10000 + 1 / 2⌋
  let a := n.natAbs
  let frac := toString (a % 10000)
  let pad := String.mk (List.replicate (4 - frac.length) '0')
  (if n < 0 then "-" else "") ++ toString (a / 10000) ++ "." ++ pad ++ frac

/-- PauseResume.cmd_RESUME; `velocity` is the VELOCITY parameter when
given. -/
def cmd_RESUME (velocity : Option ℚ) (s : State) : State × List Out :=
  if !s.is_paused then (s, [.respond key16])
  else
    let v := velocity.getD s.recover_velocity
    let r := send_resume_command s
    ({ r.1 with is_paused := false },
     [.runScript ("RESTORE_GCODE_STATE STATE=PAUSE_STATE MOVE=1 MOVE_SPEED="
        ++ pyFixed4 v)] ++ r.2)

/-- PauseResume.cmd_CLEAR_PAUSE. -/
def cmd_CLEAR_PAUSE (s : State) : State × List Out :=
  ({ s with is_paused := false, pause_command_sent := false }, [])

/-- PauseResume.cmd_CANCEL_PRINT. -/
def cmd_CANCEL_PRINT (sd_active : Bool) (s : State) : State × List Out :=
  let o1 : List Out :=
    if sd_active || s.sd_paused then [.sdDoCancel] else [.respond "action:cancel"]
  let c := cmd_CLEAR_PAUSE s
  (c.1, o1 ++ c.2 ++ [.sdClearCancelPrintState])

/-- The g-code block emitted by cmd_M600 (retract, lift, travel, purge,
counter reset), as the source format string instantiated at z, x, y, e. -/
def m600_script (z x y e : ℚ) : String :=
  "G91\nG1 E-5 F4000\nG1 Z" ++ pyFloatRepr z ++ "\nG90\nG1 X" ++ pyFloatRepr x
    ++ " Y" ++ pyFloatRepr y ++ " F3000\nG0 E10 F6000\nG0 E" ++ pyFloatRepr e
    ++ " F6000\nG92 E0"

/-- PauseResume.cmd_M600; the four parameters default to 0, 0, 10, -20. -/
def cmd_M600 (sd_active : Bool) (x y z e : Option ℚ) (s : State) :
    State × List Out :=
  let X := x.getD 0
  let Y := y.getD 0
  let Z := z.getD 10
  let E := e.getD (-20)
  if s.is_paused then (s, [.respond key211])
  else
    let p := send_pause_command sd_active s
    ({ p.1 with is_paused := true },
     p.2 ++ [.runScript "SAVE_GCODE_STATE NAME=M600_state\n",
             .runScript "SAVE_GCODE_STATE STATE=PAUSE_STATE",
             .runScript (m600_script Z X Y E)])

/-- One user-visible pause-controller operation. -/
inductive Op
  | pause
  | resume (velocity : Option ℚ)
  | clearPause
  | cancelPrint
  | m600 (x y z e : Option ℚ)
deriving DecidableEq, Repr

/-- Step of the controller on one operation; `sd_active` is what
is_sd_active() returns during that command. -/
def step (op : Op) (sd_active : Bool) (s : State) : State × List Out :=
  match op with
  | .pause => cmd_PAUSE sd_active s
  | .resume v => cmd_RESUME v s
  | .clearPause => cmd_CLEAR_PAUSE s
  | .cancelPrint => cmd_CANCEL_PRINT sd_active s
  | .m600 x y z e => cmd_M600 sd_active x y z e s

/-- A run of controller operations from a state. -/
def run (s : State) : List (Op × Bool) → State
  | [] => s
  | ob :: r => run (step ob.1 ob.2 s).1 r

/-- The claimed invariant: is_paused implies pause_command_sent. -/
def pauseInv (s : State) : Bool := !s.is_paused || s.pause_command_sent

theorem pauseInv_step (op : Op) (a : Bool) (s : State)
    (h : pauseInv s = true) : pauseInv (step op a s).1 = true := by
  cases op with
  | pause =>
    by_cases hp : s.is_paused
    · simpa [step, cmd_PAUSE, hp, pauseInv] using h
    · simp only [step, cmd_PAUSE, hp, if_false, Bool.false_eq_true]
      unfold send_pause_command pauseInv
      by_cases hc : s.pause_command_sent
      · simp [hc]
      · simp [hc]
        by_cases ha : a <;> simp [ha]
  | resume v =>
    by_cases hp : s.is_paused
    · simp only [step, cmd_RESUME, hp]
      unfold send_resume_command pauseInv
      by_cases hs : s.sd_paused <;> simp [hs]
    · simp [step, cmd_RESUME, hp, pauseInv]
  | clearPause => simp [step, cmd_CLEAR_PAUSE, pauseInv]
  | cancelPrint => simp [step, cmd_CANCEL_PRINT, cmd_CLEAR_PAUSE, pauseInv]
  | m600 x y z e =>
    by_cases hp : s.is_paused
    · simpa [step, cmd_M600, hp, pauseInv] using h
    · simp only [step, cmd_M600, hp, if_false, Bool.false_eq_true]
      unfold send_pause_command pauseInv
      by_cases hc : s.pause_command_sent
      · simp [hc]
      · simp [hc]
        by_cases ha : a <;> simp [ha]

end PR

/-- C7: after any sequence of completed pause-controller operations
(PAUSE, RESUME, CLEAR_PAUSE, CANCEL_PRINT, M600, each seeing an
arbitrary is_sd_active answer), the invariant is_paused implies
pause_command_sent holds. -/
theorem C7_pause_invariant (rv : ℚ) (ops : List (PR.Op × Bool)) :
    PR.pauseInv (PR.run (PR.init rv) ops) = true := by
  have hrun : ∀ (l : List (PR.Op × Bool)) (s : PR.State),
      PR.pauseInv s = true → PR.pauseInv (PR.run s l) = true := by
    intro l
    induction l with
    | nil => intro s h; exact h
    | cons ob r ih =>
      intro s h
      exact ih (PR.step ob.1 ob.2 s).1 (PR.pauseInv_step ob.1 ob.2 s h)
  exact hrun ops (PR.init rv) (by rfl)

/-- C9: M600 while already paused responds with key211 and leaves the
controller state unchanged; otherwise it emits the pause command
effects, the two SAVE_GCODE_STATE scripts and the retract/lift/travel/
purge/G92 sequence instantiated at the X, Y, Z, E parameters (defaults
0, 0, 10, -20), and leaves the controller paused. -/
theorem C9_m600 (a : Bool) (x y z e : Option ℚ) (s : PR.State) :
    (s.is_paused = true →
      PR.cmd_M600 a x y z e s = (s, [PR.Out.respond PR.key211])) ∧
    (s.is_paused = false →
      (PR.cmd_M600 a x y z e s).1 =
          { (PR.send_pause_command a s).1 with is_paused := true } ∧
      (PR.cmd_M600 a x y z e s).2 =
        (PR.send_pause_command a s).2 ++
          [PR.Out.runScript "SAVE_GCODE_STATE NAME=M600_state\n",
           PR.Out.runScript "SAVE_GCODE_STATE STATE=PAUSE_STATE",
           PR.Out.runScript
             (PR.m600_script (z.getD 10) (x.getD 0) (y.getD 0) (e.getD (-20)))]) ∧
    PR.cmd_M600 a none none none none s =
      PR.cmd_M600 a (some 0) (some 0) (some 10) (some (-20)) s := by
  refine ⟨?_, ?_, ?_⟩
  · intro hp
    simp [PR.cmd_M600, hp]
  · intro hp
    constructor <;> simp [PR.cmd_M600, hp]
  · rfl

/-- Witness for C9: M600 with all parameters absent from a state that is
already paused is rejected with key211 and changes nothing. -/
theorem C9_m600_witness :
    PR.cmd_M600 false none none none none
        { is_paused := true, sd_paused := false, pause_command_sent := true,
          recover_velocity := 50 } =
      ({ is_paused := true, sd_paused := false, pause_command_sent := true,
         recover_velocity := 50 }, [PR.Out.respond PR.key211]) :=
  (C9_m600 false none none none none
    { is_paused := true, sd_paused := false, pause_command_sent := true,
      recover_velocity := 50 }).1 rfl

/-!  ## Virtual SD executor state (`klippy/extras/virtual_sdcard.py`)

The VirtualSD object fields used by the claims.  The open file handle is
a name, the full character content and the current read position.  The
two per-serial save files (`<serial>_gcode_coordinate.save` and
`<serial>_print_file_name.save`) are existence flags in `Fs`. -/

namespace VSD

/-- An open g-code file: name, content, read position (f.tell()). -/
structure FileH where
  name : String
  content : List Char
  read_pos : ℕ
deriving DecidableEq, Repr

/-- VirtualSD object state (field names follow the source). -/
structure State where
  current_file : Option FileH
  file_position : ℕ
  file_size : ℕ
  must_pause_work : Bool
  cmd_from_sd : Bool
  next_file_position : ℕ
  work_timer : Bool
  count : ℕ
  count_G1 : ℕ
  do_resume_status : Bool
  do_cancel_status : Bool
  cancel_print_state : Bool
  fan_state : List Char
deriving DecidableEq, Repr

/-- VirtualSD.__init__. -/
def init : State :=
  { current_file := none, file_position := 0, file_size := 0,
    must_pause_work := false, cmd_from_sd := false, next_file_position := 0,
    work_timer := false, count := 0, count_G1 := 0, do_resume_status := false,
    do_cancel_status := false, cancel_print_state := false, fan_state := [] }

/-- Existence of the two checkpoint save files on disk. -/
structure Fs where
  gcode_coordinate_save : Bool
  print_file_name_save : Bool
deriving DecidableEq, Repr

/-- VirtualSD.progress. -/
def progress (s : State) : ℚ :=
  if s.file_size ≠ 0 then (s.file_position : ℚ) / (s.file_size : ℚ) else 0

/-- VirtualSD.is_active. -/
def is_active (s : State) : Bool := s.work_timer

/-- VirtualSD.do_pause: only when the work timer is armed does it set
the pause-request flag (the subsequent 1 ms spin waits on the reactor
and mutates no executor field). -/
def do_pause (s : State) : State :=
  if s.work_timer then { s with must_pause_work := true } else s

/-- VirtualSD.do_resume: raises key217 (modelled none) when the timer is
already armed; otherwise clears the pause request and arms the timer. -/
def do_resume (s : State) : Option State :=
  if s.work_timer then none
  else some { s with must_pause_work := false, work_timer := true }

/-- VirtualSD.cmd_M25. -/
def cmd_M25 (s : State) : State := do_pause s

/-- VirtualSD.cmd_M26: rejected (SD busy) while the work timer is armed;
otherwise sets file_position to the S parameter, which gcmd.get_int
bounds below by 0 but not above. -/
def cmd_M26 (sParam : ℕ) (s : State) : Option State :=
  if s.work_timer then none else some { s with file_position := sParam }

/-- Success path of VirtualSD._load_file with the resolved file content
supplied (directory listing and open are external I/O): records the
handle, clears the offset, records the size, and resets PrintStats onto
the new filename. -/
def load_file (filename : String) (content : List Char) (st : State)
    (ps : PS.State) : State × PS.State :=
  ({ st with current_file := some ⟨filename, content, 0⟩,
             file_position := 0, file_size := content.length },
   PS.set_current_file filename ps)

/-- Collaborator effects of do_cancel. -/
inductive CEv
  | createVideo
  | noteCancel
  | sync
deriving DecidableEq, Repr

/-- Result of do_cancel. -/
structure CancelResult where
  st : State
  ps : PS.State
  fs : Fs
  evs : List CEv
deriving Repr

/-- VirtualSD.do_cancel: possible end-of-print video render, pause and
close of the open file with a cancel notification to PrintStats, offset
zeroing, and removal of both save files followed by sync. -/
def do_cancel (now : ℚ) (st : State) (ps : PS.State) (_fs : Fs) :
    CancelResult :=
  let e1 : List CEv := if st.must_pause_work then [.createVideo] else []
  let st1 := { st with do_cancel_status := true }
  match st1.current_file with
  | some _ =>
    let st2 := { do_pause st1 with current_file := none }
    let ps2 := PS.note_cancel now ps
    ⟨{ st2 with file_position := 0, file_size := 0 }, ps2, ⟨false, false⟩,
     e1 ++ [.noteCancel, .sync]⟩
  | none =>
    ⟨{ st1 with file_position := 0, file_size := 0 }, ps, ⟨false, false⟩,
     e1 ++ [.sync]⟩

/-- The break condition of tail_read: the buffer starts with G1, G0 or
";" and ends with a newline. -/
def matchesBuf (buf : List Char) : Bool :=
  (startsWith (lchars "G1") buf || startsWith (lchars "G0") buf ||
    startsWith (lchars ";") buf) && buf.getLast? = some '\n'

/-- The loop of VirtualSD.tail_read.  Arguments: the file content, the
file read position (f.tell()), the cur_pos local, the accumulated
buffer.  One iteration reads the character at the read position (none
past the end, like f.read(1) at EOF), prepends it, decrements cur_pos
(breaking without further checks when it goes negative), seeks to
cur_pos, resets the buffer to a newline when the byte read was CR or LF,
and breaks when the buffer matches.  Returns the buffer and the final
read position.  The recursion is on cur_pos, which the loop decrements
every iteration. -/
def tail_read_aux (file : List Char) : ℕ → ℕ → List Char → List Char × ℕ
  | fpos, 0, buf =>
    let b := file[fpos]?
    let fpos2 := if fpos < file.length then fpos + 1 else fpos
    (b.toList ++ buf, fpos2)
  | fpos, c + 1, buf =>
    let b := file[fpos]?
    let buf1 := b.toList ++ buf
    let buf2 := if b = some '\n' || b = some '\r' then ['\n'] else buf1
    if matchesBuf buf2 then (buf2, c)
    else tail_read_aux file c c buf2

/-- VirtualSD.tail_read starting at read position tell (= cur_pos). -/
def tail_read (file : List Char) (tell : ℕ) : List Char × ℕ :=
  tail_read_aux file tell tell []

/-- The result dictionary of getXYZE (floats, zero-initialised; Python
truthiness of a float is being nonzero). -/
structure XYZE where
  X : ℚ
  Y : ℚ
  Z : ℚ
  E : ℚ
deriving DecidableEq, Repr

/-- The E-token pass of getXYZE over line.split(" "): each token
starting with E is clipped at CR/LF, a leading dot gets a 0 prepended,
spaces are stripped and float() is applied; a conversion failure raises
(flag true), aborting the whole scan with the fields found so far. -/
def process_tokens_E : List (List Char) → ℚ → ℚ × Bool
  | [], e => (e, false)
  | t :: r, e =>
    if startsWith (lchars "E") t then
      let ret := takeUntilChar '\n' (takeUntilChar '\r' (t.drop 1))
      let arg := if startsWith (lchars ".") ret then
          '0' :: stripBoth (fun c => c = ' ') ret
        else stripBoth (fun c => c = ' ') ret
      match pyFloat arg with
      | some v => process_tokens_E r v
      | none => (e, true)
    else process_tokens_E r e

/-- The X/Y-token pass of getXYZE (entered only while both are zero):
tokens starting with X or Y are clipped at CR, the head letter dropped
and float() applied. -/
def process_tokens_XY : List (List Char) → ℚ → ℚ → ℚ × ℚ × Bool
  | [], x, y => (x, y, false)
  | t :: r, x, y =>
    if startsWith (lchars "X") t then
      match pyFloat ((takeUntilChar '\r' t).drop 1) with
      | some v => process_tokens_XY r v y
      | none => (x, y, true)
    else if startsWith (lchars "Y") t then
      match pyFloat ((takeUntilChar '\r' t).drop 1) with
      | some v => process_tokens_XY r x v
      | none => (x, y, true)
    else process_tokens_XY r x y

/-- The Z-token pass of getXYZE. -/
def process_tokens_Z : List (List Char) → ℚ → ℚ × Bool
  | [], z => (z, false)
  | t :: r, z =>
    if startsWith (lchars "Z") t then
      match pyFloat ((takeUntilChar '\r' t).drop 1) with
      | some v => process_tokens_Z r v
      | none => (z, true)
    else process_tokens_Z r z

/-- One line of the getXYZE loop body: the E pass runs when E is still
falsy and the letter E occurs in the line, the X/Y pass when both X and
Y are falsy, the Z pass when Z is falsy and the letter Z occurs; a float
conversion failure propagates out with the fields mutated so far. -/
def process_line (line : List Char) (r : XYZE) : XYZE × Bool :=
  let toks := splitOnChar ' ' line
  let pe := if r.E = 0 && line.contains 'E' then process_tokens_E toks r.E
    else (r.E, false)
  if pe.2 then ({ r with E := pe.1 }, true)
  else
    let pxy := if r.X = 0 && r.Y = 0 then process_tokens_XY toks r.X r.Y
      else (r.X, r.Y, false)
    if pxy.2.2 then ({ r with E := pe.1, X := pxy.1, Y := pxy.2.1 }, true)
    else
      let pz := if r.Z = 0 && line.contains 'Z' then process_tokens_Z toks r.Z
        else (r.Z, false)
      (⟨pxy.1, pxy.2.1, pz.1, pe.1⟩, pz.2)

/-- All four fields truthy (nonzero), the loop exit test of getXYZE. -/
def allFound (r : XYZE) : Bool :=
  decide (r.X ≠ 0) && decide (r.Y ≠ 0) && decide (r.Z ≠ 0) && decide (r.E ≠ 0)

/-- The outer loop of VirtualSD.getXYZE with explicit fuel: break when
f.tell() reaches 0, otherwise tail_read a line, process it, return on a
conversion failure (the source catches the exception and returns the
partial result) or when all four fields are truthy. -/
def getXYZE_aux (file : List Char) : ℕ → ℕ → XYZE → XYZE
  | 0, _, r => r
  | fuel + 1, tell, r =>
    if tell = 0 then r
    else
      let tr := tail_read file tell
      let pr := process_line tr.1 r
      if pr.2 then pr.1
      else if allFound pr.1 then pr.1
      else getXYZE_aux file fuel tr.2 pr.1

/-- VirtualSD.getXYZE.  The fuel file_position + 2 covers every
terminating execution of the Python loop: the read position strictly
decreases from file_position on each productive iteration, and an
iteration that repeats a position reproduces the loop state exactly, so
the Python loop would not terminate from it (fuel exhaustion returns the
accumulated result, which such diverging executions never do). -/
def getXYZE (file : List Char) (file_position : ℕ) : XYZE :=
  getXYZE_aux file (file_position + 2) file_position ⟨0, 0, 0, 0⟩

/-- Whether a line begins with one of the scanner's key prefixes. -/
def lineMatches (l : List Char) : Bool :=
  startsWith (lchars "G1") l || startsWith (lchars "G0") l ||
    startsWith (lchars ";") l

/-- A well-formed completed line: terminated by its only newline and
free of carriage returns. -/
def wfLine (l : List Char) : Bool :=
  decide (l.getLast? = some '\n') && decide ('\n' ∉ l.dropLast) &&
    decide ('\r' ∉ l)

/-- No proper suffix of the line begins with G0, G1 or ';': the
backward scanner never stops in the middle of such a line. -/
def noInnerKey (l : List Char) : Bool :=
  (List.range l.length).all fun i => decide (i = 0) || !lineMatches (l.drop i)

/-- Every line well formed, with no inner key prefix. -/
def wfLines (ls : List (List Char)) : Bool :=
  ls.all fun l => wfLine l && noInnerKey l

/-- The backward line walk the amended C6 claim describes: process the
listed lines in order (latest first), stopping at a conversion failure
or once all four fields are nonzero. -/
def lineScan : List (List Char) → XYZE → XYZE
  | [], r => r
  | l :: ls, r =>
    let pr := process_line l r
    if pr.2 then pr.1
    else if allFound pr.1 then pr.1
    else lineScan ls pr.1

/-- Whether the walk stops (conversion failure or all four fields
nonzero) within the listed lines — before the scanner would reach the
beginning of the file. -/
def scanCompletes : List (List Char) → XYZE → Bool
  | [], _ => false
  | l :: ls, r =>
    let pr := process_line l r
    if pr.2 then true
    else if allFound pr.1 then true
    else scanCompletes ls pr.1

end VSD

namespace VSD

/-- Spec-side helper for the C6 claim wording: the lines of the file
with their byte start offsets. -/
def linesWithStartsAux : List (List Char) → ℕ → List (List Char × ℕ)
  | [], _ => []
  | l :: r, off => (l, off) :: linesWithStartsAux r (off + l.length + 1)

/-- Spec-side: lines of the file paired with their start offsets. -/
def linesWithStarts (file : List Char) : List (List Char × ℕ) :=
  linesWithStartsAux (splitOnChar '\n' file) 0

/-- Spec-side: whether a line has a token carrying the given axis
letter. -/
def hasTok (axis : Char) (l : List Char) : Bool :=
  (splitOnChar ' ' l).any (fun t => startsWith [axis] t)

/-- Spec-side: a G1 line carrying X, Y, Z and E fields. -/
def isG1WithXYZE (l : List Char) : Bool :=
  startsWith (lchars "G1") l && hasTok 'X' l && hasTok 'Y' l &&
    hasTok 'Z' l && hasTok 'E' l

/-- Spec-side: the hypothesis of the C6 claim — the file contains at
least one G1 line with X, Y, Z and E fields completed before offset K. -/
def claimC6Hyp (file : List Char) (K : ℕ) : Bool :=
  (linesWithStarts file).any
    (fun p => decide (p.2 + p.1.length ≤ K) && isG1WithXYZE p.1)

/-- Spec-side: the E value carried by a line (last E token, converted
the way the scanner converts it). -/
def tokE (l : List Char) : Option ℚ :=
  ((splitOnChar ' ' l).filterMap
    (fun t => if startsWith (lchars "E") t then
        pyFloat (takeUntilChar '\n' (takeUntilChar '\r' (t.drop 1)))
      else none)).getLast?

/-- Spec-side: the E value of the latest G1 line carrying an E value
that is completed before offset K — what the C6 claim says getXYZE
returns as E. -/
def latestG1E (file : List Char) (K : ℕ) : Option ℚ :=
  (((linesWithStarts file).filter
      (fun p => decide (p.2 + p.1.length ≤ K) &&
        startsWith (lchars "G1") p.1 && (tokE p.1).isSome)).getLast?).bind
    (fun p => tokE p.1)

/-- Spec-side: the axis value carried by a line for the axis letter a
(last a-starting token, converted the way the scanner converts it). -/
def tokAxis (a : Char) (l : List Char) : Option ℚ :=
  ((splitOnChar ' ' l).filterMap
    (fun t => if startsWith [a] t then
        pyFloat ((takeUntilChar '\r' t).drop 1)
      else none)).getLast?

/-- Spec-side: the axis value of the latest line completed before
offset K that carries the axis — what the C6 claim says getXYZE
returns for X, Y and Z. -/
def latestAxis (a : Char) (file : List Char) (K : ℕ) : Option ℚ :=
  (((linesWithStarts file).filter
      (fun p => decide (p.2 + p.1.length ≤ K) &&
        (tokAxis a p.1).isSome)).getLast?).bind
    (fun p => tokAxis a p.1)

/-- One backward step of tail_read over an ordinary character: it is
prepended to the buffer and the scan moves one position left. -/
theorem tail_read_aux_advance (file : List Char) (p q : ℕ) (c : Char)
    (buf : List Char) (hp : p = q + 1) (hb : file[p]? = some c)
    (hn : c ≠ '\n') (hr : c ≠ '\r') (hm : matchesBuf (c :: buf) = false) :
    tail_read_aux file p p buf = tail_read_aux file q q (c :: buf) := by
  subst hp
  rw [tail_read_aux, hb]
  simp [hn, hr, hm]

/-- One backward step of tail_read over a CR or LF: the buffer is reset
to a single newline. -/
theorem tail_read_aux_reset (file : List Char) (p q : ℕ) (c : Char)
    (buf : List Char) (hp : p = q + 1) (hb : file[p]? = some c)
    (hc : c = '\n' ∨ c = '\r') :
    tail_read_aux file p p buf = tail_read_aux file q q ['\n'] := by
  subst hp
  have hm : matchesBuf ['\n'] = false := by decide
  rcases hc with h | h <;> subst h <;> rw [tail_read_aux, hb] <;> simp [hm]

/-- The breaking step of tail_read: the buffer now matches, the scan
stops with the read position one left of the matched character. -/
theorem tail_read_aux_break (file : List Char) (p q : ℕ) (c : Char)
    (buf : List Char) (hp : p = q + 1) (hb : file[p]? = some c)
    (hn : c ≠ '\n') (hr : c ≠ '\r') (hm : matchesBuf (c :: buf) = true) :
    tail_read_aux file p p buf = (c :: buf, q) := by
  subst hp
  rw [tail_read_aux, hb]
  simp [hn, hr, hm]

/-- The beginning-of-file break of tail_read: reading the character at
position 0 sends cur_pos negative, so the loop breaks with no reset and
no match test, the read position now 1. -/
theorem tail_read_aux_bof (file : List Char) (c : Char) (buf : List Char)
    (hb : file[0]? = some c) :
    tail_read_aux file 0 0 buf = (c :: buf, 1) := by
  have hlen : 0 < file.length := by
    cases file with
    | nil => simp at hb
    | cons a l => simp
  rw [tail_read_aux, hb]
  simp [hlen]

/-- One non-final iteration of the getXYZE loop. -/
theorem getXYZE_aux_step (file : List Char) (fuel tell t' : ℕ) (r r' : XYZE)
    (line : List Char) (ht : tell ≠ 0) (htr : tail_read file tell = (line, t'))
    (hpr : process_line line r = (r', false)) (hnf : allFound r' = false) :
    getXYZE_aux file (fuel + 1) tell r = getXYZE_aux file fuel t' r' := by
  rw [getXYZE_aux]
  simp [ht, htr, hpr, hnf]

/-- The final iteration of the getXYZE loop: all four fields truthy. -/
theorem getXYZE_aux_found (file : List Char) (fuel tell t' : ℕ) (r r' : XYZE)
    (line : List Char) (ht : tell ≠ 0) (htr : tail_read file tell = (line, t'))
    (hpr : process_line line r = (r', false)) (hf : allFound r' = true) :
    getXYZE_aux file (fuel + 1) tell r = r' := by
  rw [getXYZE_aux]
  simp [ht, htr, hpr, hf]

/-- A one-character buffer that is not a newline never matches. -/
theorem matchesBuf_single (c : Char) (hn : c ≠ '\n') :
    matchesBuf [c] = false := by
  simp [matchesBuf, hn]

/-- The abort iteration of the getXYZE loop: a float conversion failed,
the partial result is returned. -/
theorem getXYZE_aux_abort (file : List Char) (fuel tell t' : ℕ)
    (r r' : XYZE) (line : List Char) (ht : tell ≠ 0)
    (htr : tail_read file tell = (line, t'))
    (hpr : process_line line r = (r', true)) :
    getXYZE_aux file (fuel + 1) tell r = r' := by
  rw [getXYZE_aux]
  simp [ht, htr, hpr]

/-- Two starting positions whose first tail_read coincides make the
loop coincide. -/
theorem getXYZE_aux_congr (file : List Char) (fuel t1 t2 : ℕ) (r : XYZE)
    (h1 : t1 ≠ 0) (h2 : t2 ≠ 0)
    (htr : tail_read file t1 = tail_read file t2) :
    getXYZE_aux file (fuel + 1) t1 r = getXYZE_aux file (fuel + 1) t2 r := by
  rw [getXYZE_aux]
  rw [show getXYZE_aux file (fuel + 1) t2 r =
    (if t2 = 0 then r else
      let tr := tail_read file t2
      let pr := process_line tr.1 r
      if pr.2 then pr.1
      else if allFound pr.1 then pr.1
      else getXYZE_aux file fuel tr.2 pr.1) from by rw [getXYZE_aux]]
  simp [h1, h2, htr]

/-- The backward step over a position past the end of the file (f.read
at EOF returns the empty string). -/
theorem tail_read_aux_none (file : List Char) (p q : ℕ) (buf : List Char)
    (hp : p = q + 1) (hb : file[p]? = none)
    (hm : matchesBuf buf = false) :
    tail_read_aux file p p buf = tail_read_aux file q q buf := by
  subst hp
  rw [tail_read_aux, hb]
  simp [hm]

/-- A buffer that does not begin with a key prefix never matches. -/
theorem matchesBuf_of_false (l : List Char) (h : lineMatches l = false) :
    matchesBuf l = false := by
  unfold lineMatches at h
  unfold matchesBuf
  rw [h]
  simp

/-- On a newline-terminated buffer the match test is exactly the key
prefix test. -/
theorem matchesBuf_eq_of_last (l : List Char) (h : l.getLast? = some '\n') :
    matchesBuf l = lineMatches l := by
  unfold matchesBuf lineMatches
  rw [h]
  simp

/-- Unpacking wfLine: last character a newline, no interior newline, no
carriage return anywhere. -/
theorem wfLine_facts (L : List Char) (h : wfLine L = true) :
    L.getLast? = some '\n' ∧
    (∀ j (hj : j < L.length), j + 1 < L.length → L[j] ≠ '\n') ∧
    (∀ j (hj : j < L.length), L[j] ≠ '\r') := by
  unfold wfLine at h
  rw [Bool.and_eq_true, Bool.and_eq_true, decide_eq_true_eq,
    decide_eq_true_eq, decide_eq_true_eq] at h
  obtain ⟨⟨h1, h2⟩, h3⟩ := h
  refine ⟨h1, ?_, ?_⟩
  · intro j hj hj1 hc
    apply h2
    have hdl : j < L.dropLast.length := by
      rw [List.length_dropLast]
      omega
    have := List.getElem_dropLast L j hdl
    rw [← hc]
    rw [← this]
    exact List.getElem_mem hdl
  · intro j hj hc
    apply h3
    rw [← hc]
    exact List.getElem_mem hj

/-- A well-formed line is nonempty. -/
theorem wfLine_ne_nil (L : List Char) (h : wfLine L = true) : L ≠ [] := by
  intro he
  subst he
  simp [wfLine] at h

/-- Unpacking noInnerKey. -/
theorem noInnerKey_facts (L : List Char) (h : noInnerKey L = true) :
    ∀ i, 1 ≤ i → i < L.length → lineMatches (L.drop i) = false := by
  intro i h1 h2
  unfold noInnerKey at h
  rw [List.all_eq_true] at h
  have := h i (List.mem_range.mpr h2)
  rw [Bool.or_eq_true, decide_eq_true_eq, Bool.not_eq_true'] at this
  rcases this with h0 | hf
  · omega
  · exact hf

/-- A well-formed matching line has at least two characters (the key
prefix cannot be the final newline). -/
theorem matching_len2 (L : List Char) (hw : wfLine L = true)
    (hm : lineMatches L = true) : 2 ≤ L.length := by
  obtain ⟨hlast, _, _⟩ := wfLine_facts L hw
  by_contra hlt
  have hne := wfLine_ne_nil L hw
  obtain ⟨a, rfl⟩ : ∃ a, L = [a] := by
    cases L with
    | nil => exact absurd rfl hne
    | cons a t =>
      cases t with
      | nil => exact ⟨a, rfl⟩
      | cons b t2 => simp at hlt
  have ha : a = '\n' := by simpa using hlast
  subst ha
  simp [lineMatches, startsWith, lchars, List.isPrefixOf] at hm

/-- A line of the listing is no longer than the flattened listing. -/
theorem len_le_flatten (L : List Char) (ls : List (List Char))
    (h : L ∈ ls) : L.length ≤ ls.flatten.length := by
  rw [List.length_flatten]
  exact List.single_le_sum (fun _ _ => Nat.zero_le _) _
    (List.mem_map_of_mem _ h)

/-- A listing with a matching line flattens to at least two
characters. -/
theorem flatten_ge_two (ls : List (List Char)) (hw : wfLines ls = true)
    (hne : ls.filter lineMatches ≠ []) : 2 ≤ ls.flatten.length := by
  obtain ⟨L, hmem, hm⟩ : ∃ L ∈ ls, lineMatches L = true := by
    by_contra hno
    push_neg at hno
    exact hne (List.filter_eq_nil_iff.mpr
      (by intro a ha; simp [hno a ha]))
  have hwL : wfLine L = true := by
    unfold wfLines at hw
    rw [List.all_eq_true] at hw
    have := hw L hmem
    rw [Bool.and_eq_true] at this
    exact this.1
  exact le_trans (matching_len2 L hwL hm) (len_le_flatten L ls hmem)

/-- Every line of a well-formed listing is nonempty, so the flattened
listing is at least as long as the listing. -/
theorem length_le_flatten_of_wf (ls : List (List Char))
    (hw : wfLines ls = true) : ls.length ≤ ls.flatten.length := by
  induction ls with
  | nil => simp
  | cons L t ih =>
    unfold wfLines at hw ih
    rw [List.all_cons, Bool.and_eq_true] at hw
    have h1 : 1 ≤ L.length := by
      have := wfLine_ne_nil L (by rw [Bool.and_eq_true] at hw; exact hw.1.1)
      cases L with
      | nil => exact absurd rfl this
      | cons a t2 => simp
    have := ih hw.2
    simp only [List.flatten_cons, List.length_append, List.length_cons]
    omega

/-- The flattened well-formed listing ends with a newline, read through
an arbitrary continuation. -/
theorem flatten_last_nl (ls : List (List Char)) (hw : wfLines ls = true)
    (hne : ls ≠ []) (rest : List Char) :
    (ls.flatten ++ rest)[ls.flatten.length - 1]? = some '\n' := by
  have hlast : ls.flatten.getLast? = some '\n' := by
    induction ls using List.reverseRecOn with
    | nil => exact absurd rfl hne
    | append_singleton t M _ =>
      unfold wfLines at hw
      rw [List.all_append, Bool.and_eq_true] at hw
      have hwM : wfLine M = true := by
        have := hw.2
        simp only [List.all_cons, List.all_nil, Bool.and_true,
          Bool.and_eq_true] at this
        exact this.1
      have hMne := wfLine_ne_nil M hwM
      rw [List.flatten_append]
      simp only [List.flatten_cons, List.flatten_nil, List.append_nil]
      rw [List.getLast?_append_of_ne_nil _ hMne]
      exact (wfLine_facts M hwM).1
  have hfne : ls.flatten ≠ [] := by
    intro h
    rw [h] at hlast
    simp at hlast
  have hlen : 1 ≤ ls.flatten.length := by
    cases hf : ls.flatten with
    | nil => exact absurd hf hfne
    | cons a t => simp [hf]
  rw [List.getElem?_append, if_pos (by omega)]
  rw [← List.getLast?_eq_getElem?]
  exact hlast

/-- Starting the backward scan just after a newline or on it gives the
same outcome: the first character read from the later position is
discarded at the newline reset. -/
theorem tail_read_eq_prev (file : List Char) (t : ℕ) (h2 : 2 ≤ t)
    (hnl : file[t - 1]? = some '\n') :
    tail_read file t = tail_read file (t - 1) := by
  obtain ⟨s, rfl⟩ : ∃ s, t = s + 2 := ⟨t - 2, by omega⟩
  have hnl' : file[s + 1]? = some '\n' := by
    rw [show s + 1 = s + 2 - 1 from by omega]
    exact hnl
  have hstep : ∀ buf, tail_read_aux file (s + 1) (s + 1) buf =
      tail_read_aux file s s ['\n'] := fun buf =>
    tail_read_aux_reset file (s + 1) s '\n' buf rfl hnl' (Or.inl rfl)
  unfold tail_read
  rw [show s + 2 - 1 = s + 1 from by omega]
  cases hft : file[s + 2]? with
  | none =>
    rw [tail_read_aux_none file (s + 2) (s + 1) [] rfl hft (by decide)]
  | some c =>
    by_cases hc : c = '\n' ∨ c = '\r'
    · rw [tail_read_aux_reset file (s + 2) (s + 1) c [] rfl hft hc]
      rw [hstep ['\n'], hstep []]
    · push_neg at hc
      rw [tail_read_aux_advance file (s + 2) (s + 1) c [] rfl hft hc.1 hc.2
        (matchesBuf_single c hc.1)]
      rw [hstep [c], hstep []]

/-- The backward scan inside a well-formed line: from any interior
position, with the buffer holding the line's suffix from the next
position, the scan runs to the head of the line and then breaks with
the full line (key-prefixed lines), returns it at the beginning of the
file, or continues past its start. -/
theorem scan_line_chunk (file L : List Char) (S : ℕ)
    (hlast : L.getLast? = some '\n')
    (hint : ∀ j (hj : j < L.length), j + 1 < L.length → L[j] ≠ '\n')
    (hcr : ∀ j (hj : j < L.length), L[j] ≠ '\r')
    (hnik : ∀ i, 1 ≤ i → i < L.length → lineMatches (L.drop i) = false)
    (hchars : ∀ j (hj : j < L.length), file[S + j]? = some L[j]) :
    ∀ j, j + 2 ≤ L.length →
      tail_read_aux file (S + j) (S + j) (L.drop (j + 1)) =
        (if S = 0 then (L, 1)
         else if lineMatches L = true then (L, S - 1)
         else tail_read_aux file (S - 1) (S - 1) L) := by
  intro j
  induction j with
  | zero =>
    intro hn2
    have h0 : (0 : ℕ) < L.length := by omega
    have hb : file[S]? = some L[0] := by
      have := hchars 0 h0
      simpa using this
    have hcons : L[0] :: L.drop 1 = L := by
      have := List.getElem_cons_drop L 0 h0
      simpa using this
    have hnl0 : L[0] ≠ '\n' := hint 0 h0 (by omega)
    have hcr0 : L[0] ≠ '\r' := hcr 0 h0
    rcases Nat.eq_zero_or_pos S with hS | hS
    · subst hS
      rw [if_pos rfl]
      have := tail_read_aux_bof file L[0] (L.drop 1) hb
      rw [show (0 : ℕ) + 0 = 0 from rfl, show (0 : ℕ) + 1 = 1 from rfl]
      rw [this, hcons]
    · rw [if_neg (by omega)]
      obtain ⟨s, rfl⟩ : ∃ s, S = s + 1 := ⟨S - 1, by omega⟩
      rw [show s + 1 + 0 = s + 1 from rfl, show (0 : ℕ) + 1 = 1 from rfl]
      by_cases hm : lineMatches L = true
      · rw [if_pos hm]
        have hmb : matchesBuf (L[0] :: L.drop 1) = true := by
          rw [hcons, matchesBuf_eq_of_last L hlast]
          exact hm
        rw [tail_read_aux_break file (s + 1) s L[0] (L.drop 1) rfl hb
          hnl0 hcr0 hmb]
        rw [hcons]
        simp
      · rw [if_neg hm]
        have hmb : matchesBuf (L[0] :: L.drop 1) = false := by
          rw [hcons]
          exact matchesBuf_of_false L (by
            cases hx : lineMatches L
            · rfl
            · exact absurd hx hm)
        rw [tail_read_aux_advance file (s + 1) s L[0] (L.drop 1) rfl hb
          hnl0 hcr0 hmb]
        rw [hcons]
        simp
  | succ j ih =>
    intro hj
    have hj1 : j + 1 < L.length := by omega
    have hb : file[S + (j + 1)]? = some L[j + 1] := hchars (j + 1) hj1
    have hnl : L[j + 1] ≠ '\n' := hint (j + 1) hj1 (by omega)
    have hcr' : L[j + 1] ≠ '\r' := hcr (j + 1) hj1
    have hcons : L[j + 1] :: L.drop (j + 1 + 1) = L.drop (j + 1) :=
      List.getElem_cons_drop L (j + 1) hj1
    have hmb : matchesBuf (L[j + 1] :: L.drop (j + 1 + 1)) = false := by
      rw [hcons]
      exact matchesBuf_of_false _ (hnik (j + 1) (by omega) hj1)
    rw [tail_read_aux_advance file (S + (j + 1)) (S + j) L[j + 1]
      (L.drop (j + 1 + 1)) (by omega) hb hnl hcr' hmb]
    rw [hcons]
    exact ih (by omega)

/-- The backward scan entered at the boundary just after a well-formed
line: it returns the line when it is key-prefixed (or when the file
begins with it), and otherwise continues past its start with the full
line as buffer. -/
theorem tail_read_boundary (file L : List Char) (S : ℕ)
    (hK2 : 2 ≤ S + L.length)
    (hw : wfLine L = true)
    (hnik : ∀ i, 1 ≤ i → i < L.length → lineMatches (L.drop i) = false)
    (hchars : ∀ j (hj : j < L.length), file[S + j]? = some L[j]) :
    tail_read file (S + L.length) =
      (if S = 0 then (L, 1)
       else if lineMatches L = true then (L, S - 1)
       else tail_read_aux file (S - 1) (S - 1) L) := by
  obtain ⟨hlast, hint, hcr⟩ := wfLine_facts L hw
  have hne := wfLine_ne_nil L hw
  have hn1 : 1 ≤ L.length := by
    cases L with
    | nil => exact absurd rfl hne
    | cons a t => simp
  have hlastc : L[L.length - 1] = '\n' := by
    have h1 : L[L.length - 1]? = some '\n' := by
      rw [← List.getLast?_eq_getElem?]
      exact hlast
    have h2 : L[L.length - 1]? = some L[L.length - 1] :=
      List.getElem?_eq_getElem (by omega)
    rw [h1] at h2
    exact (Option.some_injective _ h2).symm
  have hnlK : file[S + L.length - 1]? = some '\n' := by
    have := hchars (L.length - 1) (by omega)
    rw [hlastc] at this
    rw [show S + L.length - 1 = S + (L.length - 1) from by omega]
    exact this
  -- the first step, from position S + L.length, lands on S + L.length - 1
  -- with an arbitrary buffer, and the newline there resets it
  obtain ⟨u, hu⟩ : ∃ u, S + L.length = u + 2 := ⟨S + L.length - 2, by omega⟩
  have hstep : ∀ buf, tail_read_aux file (u + 1) (u + 1) buf =
      tail_read_aux file u u ['\n'] := fun buf =>
    tail_read_aux_reset file (u + 1) u '\n' buf rfl
      (by rw [show u + 1 = S + L.length - 1 from by omega]; exact hnlK)
      (Or.inl rfl)
  have hentry : tail_read file (S + L.length) =
      tail_read_aux file u u ['\n'] := by
    unfold tail_read
    rw [hu]
    cases hft : file[u + 2]? with
    | none =>
      rw [tail_read_aux_none file (u + 2) (u + 1) [] rfl hft (by decide)]
      exact hstep []
    | some c =>
      by_cases hc : c = '\n' ∨ c = '\r'
      · rw [tail_read_aux_reset file (u + 2) (u + 1) c [] rfl hft hc]
        exact hstep ['\n']
      · push_neg at hc
        rw [tail_read_aux_advance file (u + 2) (u + 1) c [] rfl hft hc.1 hc.2
          (matchesBuf_single c hc.1)]
        exact hstep [c]
  rw [hentry]
  by_cases hn2 : 2 ≤ L.length
  · -- u = S + (L.length - 2), and ['\n'] is the line's final suffix
    have hu2 : u = S + (L.length - 2) := by omega
    have hdrop : L.drop (L.length - 2 + 1) = ['\n'] := by
      rw [show L.length - 2 + 1 = L.length - 1 from by omega]
      rw [List.drop_eq_getElem_cons (by omega), hlastc]
      rw [show L.length - 1 + 1 = L.length from by omega, List.drop_length]
    rw [hu2, ← hdrop]
    exact scan_line_chunk file L S hlast hint hcr hnik hchars
      (L.length - 2) (by omega)
  · -- L = ['\n']: the blank line is skipped into the previous one
    have hL : L = ['\n'] := by
      obtain ⟨a, rfl⟩ : ∃ a, L = [a] := by
        cases L with
        | nil => exact absurd rfl hne
        | cons a t =>
          cases t with
          | nil => exact ⟨a, rfl⟩
          | cons b t2 => simp at hn2
      have : a = '\n' := by simpa using hlast
      rw [this]
    subst hL
    have hS1 : 1 ≤ S := by simp at hK2; omega
    rw [if_neg (by omega), if_neg (by decide)]
    rw [show u = S - 1 from by simp at hu; omega]

/-- The byte-level backward scan of getXYZE visits exactly the
key-prefixed completed lines before the boundary, latest first: its
loop equals the line walk, as long as the walk completes before
reaching the beginning of the file. -/
theorem getXYZE_lines (pre : List (List Char)) :
    ∀ (post : List Char) (r : XYZE) (fuel : ℕ),
      wfLines pre = true →
      scanCompletes ((pre.filter lineMatches).reverse) r = true →
      pre.length + 1 ≤ fuel →
      getXYZE_aux (pre.flatten ++ post) fuel pre.flatten.length r =
        lineScan ((pre.filter lineMatches).reverse) r := by
  induction pre using List.reverseRecOn with
  | nil =>
    intro post r fuel _ hc _
    simp [scanCompletes] at hc
  | append_singleton pre' L ih =>
    intro post r fuel hwf hc hfuel
    rw [List.length_append] at hfuel
    simp only [List.length_cons, List.length_nil] at hfuel
    have hwf3 : wfLines pre' = true ∧ wfLine L = true ∧
        noInnerKey L = true := by
      unfold wfLines at hwf
      rw [List.all_append, Bool.and_eq_true] at hwf
      refine ⟨hwf.1, ?_⟩
      have := hwf.2
      simp only [List.all_cons, List.all_nil, Bool.and_true] at this
      rw [Bool.and_eq_true] at this
      exact this
    obtain ⟨hwfp, hwL, hnoik⟩ := hwf3
    have hnik := noInnerKey_facts L hnoik
    have hne := wfLine_ne_nil L hwL
    have hn1 : 1 ≤ L.length := by
      cases L with
      | nil => exact absurd rfl hne
      | cons a t => simp
    have hfile : (pre' ++ [L]).flatten = pre'.flatten ++ L := by
      simp [List.flatten_append]
    rw [hfile, List.append_assoc, List.length_append]
    have hfil : ((pre' ++ [L]).filter lineMatches).reverse =
        (if lineMatches L = true then L :: (pre'.filter lineMatches).reverse
         else (pre'.filter lineMatches).reverse) := by
      by_cases hm : lineMatches L = true <;>
        simp [List.filter_append, List.reverse_append, hm]
    rw [hfil] at hc ⊢
    have hchars : ∀ j (hj : j < L.length),
        (pre'.flatten ++ (L ++ post))[pre'.flatten.length + j]? =
          some L[j] := by
      intro j hj
      rw [List.getElem?_append_right (Nat.le_add_right _ _)]
      rw [show pre'.flatten.length + j - pre'.flatten.length = j from
        by omega]
      rw [List.getElem?_append, if_pos hj]
      exact List.getElem?_eq_getElem hj
    by_cases hm : lineMatches L = true
    · rw [if_pos hm] at hc ⊢
      have hn2 : 2 ≤ L.length := matching_len2 L hwL hm
      have htr := tail_read_boundary (pre'.flatten ++ (L ++ post)) L
        pre'.flatten.length (by omega) hwL hnik hchars
      obtain ⟨f, rfl⟩ : ∃ f, fuel = f + 1 := ⟨fuel - 1, by omega⟩
      rcases hpr : process_line L r with ⟨r', ab⟩
      cases ab with
      | true =>
        have hscan : lineScan (L :: (pre'.filter lineMatches).reverse) r
            = r' := by
          unfold lineScan
          rw [hpr]
          simp
        obtain ⟨t', htr'⟩ : ∃ t',
            tail_read (pre'.flatten ++ (L ++ post))
              (pre'.flatten.length + L.length) = (L, t') := by
          rw [htr]
          by_cases h0 : pre'.flatten.length = 0
          · exact ⟨1, by rw [if_pos h0]⟩
          · exact ⟨pre'.flatten.length - 1, by rw [if_neg h0, if_pos hm]⟩
        rw [hscan]
        exact getXYZE_aux_abort _ f _ t' r r' L (by omega) htr' hpr
      | false =>
        by_cases haf : allFound r' = true
        · have hscan : lineScan (L :: (pre'.filter lineMatches).reverse) r
              = r' := by
            unfold lineScan
            rw [hpr]
            simp [haf]
          obtain ⟨t', htr'⟩ : ∃ t',
              tail_read (pre'.flatten ++ (L ++ post))
                (pre'.flatten.length + L.length) = (L, t') := by
            rw [htr]
            by_cases h0 : pre'.flatten.length = 0
            · exact ⟨1, by rw [if_pos h0]⟩
            · exact ⟨pre'.flatten.length - 1, by rw [if_neg h0, if_pos hm]⟩
          rw [hscan]
          exact getXYZE_aux_found _ f _ t' r r' L (by omega) htr' hpr haf
        · have hafF : allFound r' = false := by
            cases hx : allFound r'
            · rfl
            · exact absurd hx haf
          have hc' : scanCompletes ((pre'.filter lineMatches).reverse) r'
              = true := by
            unfold scanCompletes at hc
            rw [hpr] at hc
            simpa [hafF] using hc
          have hrest : pre'.filter lineMatches ≠ [] := by
            intro h
            rw [h] at hc'
            simp [scanCompletes] at hc'
          have hpne : pre' ≠ [] := by
            intro h
            subst h
            exact hrest rfl
          have hS2 : 2 ≤ pre'.flatten.length :=
            flatten_ge_two pre' hwfp hrest
          have htr' : tail_read (pre'.flatten ++ (L ++ post))
              (pre'.flatten.length + L.length) =
              (L, pre'.flatten.length - 1) := by
            rw [htr, if_neg (by omega), if_pos hm]
          have hlsc : lineScan (L :: (pre'.filter lineMatches).reverse) r =
              lineScan ((pre'.filter lineMatches).reverse) r' := by
            conv_lhs => unfold lineScan
            rw [hpr]
            simp [hafF]
          rw [hlsc]
          rw [getXYZE_aux_step _ f _ (pre'.flatten.length - 1) r r' L
            (by omega) htr' hpr hafF]
          have hnlS : (pre'.flatten ++
              (L ++ post))[pre'.flatten.length - 1]? = some '\n' :=
            flatten_last_nl pre' hwfp hpne (L ++ post)
          have hpeq := tail_read_eq_prev (pre'.flatten ++ (L ++ post))
            pre'.flatten.length hS2 hnlS
          obtain ⟨f2, rfl⟩ : ∃ f2, f = f2 + 1 := ⟨f - 1, by omega⟩
          rw [getXYZE_aux_congr _ f2 (pre'.flatten.length - 1)
            pre'.flatten.length r' (by omega) (by omega) hpeq.symm]
          exact ih (L ++ post) r' (f2 + 1) hwfp hc' (by omega)
    · rw [if_neg hm] at hc ⊢
      have hrest : pre'.filter lineMatches ≠ [] := by
        intro h
        rw [h] at hc
        simp [scanCompletes] at hc
      have hpne : pre' ≠ [] := by
        intro h
        subst h
        exact hrest rfl
      have hS2 : 2 ≤ pre'.flatten.length := flatten_ge_two pre' hwfp hrest
      have htr := tail_read_boundary (pre'.flatten ++ (L ++ post)) L
        pre'.flatten.length (by omega) hwL hnik hchars
      have hmF : lineMatches L = false := by
        cases hx : lineMatches L
        · rfl
        · exact absurd hx hm
      have htr1 : tail_read (pre'.flatten ++ (L ++ post))
          (pre'.flatten.length + L.length) =
          tail_read_aux (pre'.flatten ++ (L ++ post))
            (pre'.flatten.length - 1) (pre'.flatten.length - 1) L := by
        rw [htr, if_neg (by omega), if_neg (by simp [hmF])]
      have hnlS : (pre'.flatten ++ (L ++ post))[pre'.flatten.length - 1]?
          = some '\n' := flatten_last_nl pre' hwfp hpne (L ++ post)
      obtain ⟨s, hs⟩ : ∃ s, pre'.flatten.length = s + 2 :=
        ⟨pre'.flatten.length - 2, by omega⟩
      have hstep : ∀ buf, tail_read_aux (pre'.flatten ++ (L ++ post))
          (s + 1) (s + 1) buf =
          tail_read_aux (pre'.flatten ++ (L ++ post)) s s ['\n'] :=
        fun buf => tail_read_aux_reset _ (s + 1) s '\n' buf rfl
          (by rw [show s + 1 = pre'.flatten.length - 1 from by omega]
              exact hnlS)
          (Or.inl rfl)
      have h2 : tail_read_aux (pre'.flatten ++ (L ++ post))
          (pre'.flatten.length - 1) (pre'.flatten.length - 1) L =
          tail_read_aux (pre'.flatten ++ (L ++ post)) s s ['\n'] := by
        rw [show pre'.flatten.length - 1 = s + 1 from by omega]
        exact hstep L
      have h3 : tail_read (pre'.flatten ++ (L ++ post))
          pre'.flatten.length =
          tail_read_aux (pre'.flatten ++ (L ++ post)) s s ['\n'] := by
        have hb0 : (pre'.flatten ++ (L ++ post))[s + 2]? = some L[0] := by
          have := hchars 0 (by omega)
          rw [hs] at this
          simpa using this
        unfold tail_read
        rw [hs]
        by_cases hc0 : L[0] = '\n' ∨ L[0] = '\r'
        · rw [tail_read_aux_reset _ (s + 2) (s + 1) L[0] [] rfl hb0 hc0]
          exact hstep ['\n']
        · push_neg at hc0
          rw [tail_read_aux_advance _ (s + 2) (s + 1) L[0] [] rfl hb0
            hc0.1 hc0.2 (matchesBuf_single _ hc0.1)]
          exact hstep [L[0]]
      have htreq : tail_read (pre'.flatten ++ (L ++ post))
          (pre'.flatten.length + L.length) =
          tail_read (pre'.flatten ++ (L ++ post)) pre'.flatten.length := by
        rw [htr1, h2, h3]
      obtain ⟨f, rfl⟩ : ∃ f, fuel = f + 1 := ⟨fuel - 1, by omega⟩
      rw [getXYZE_aux_congr _ f _ pre'.flatten.length r (by omega)
        (by omega) htreq]
      exact ih (L ++ post) r (f + 1) hwfp hc (by omega)

end VSD

/-- C6 counterexamples. (1) In the file "G1 X1 Y2 Z3 E4\n; E9\nM105\n"
with offset 20 (the start of the M105 line), the G1 line before the
offset carries X, Y, Z and E — satisfying the claim hypothesis — and
the E of the latest G1 line carrying an E value is 4; but getXYZE
returns E = 9, taken from the later comment line "; E9": the scanner
takes E from any line beginning with G0, G1 or ";" that has an
E-starting token, not only from G1 lines. (2) In the file
"G1 X1 Y2 Z3 E4\n; Z!\nG1 X5 E8\nM105\n" with offset 29, the latest
line before the offset carrying a Y value is "G1 X1 Y2 Z3 E4" with
Y = 2, yet getXYZE returns Y = 0: the later "G1 X5 E8" line sets X
alone, and the joint guard "not X and not Y" then blocks the Y slot
for the rest of the scan — X and Y are not taken together from a line
providing both. (3) In the file
"G1 X1 Y2 Z3 E4\nG1 X0 Y0 Z5 E6\nM105\n" with offset 30, the latest
line before the offset carrying an X value is "G1 X0 Y0 Z5 E6" with
X = 0, yet getXYZE returns X = 1 from the earlier line: a parsed zero
leaves the slot unknown, so the values are not those of the latest
line carrying the axis. -/
theorem C6_tail_scanner_counterexample :
    (VSD.claimC6Hyp (lchars "G1 X1 Y2 Z3 E4\n; E9\nM105\n") 20 = true ∧
    VSD.latestG1E (lchars "G1 X1 Y2 Z3 E4\n; E9\nM105\n") 20 = some 4 ∧
    VSD.getXYZE (lchars "G1 X1 Y2 Z3 E4\n; E9\nM105\n") 20 =
      ⟨1, 2, 3, 9⟩ ∧
    (VSD.getXYZE (lchars "G1 X1 Y2 Z3 E4\n; E9\nM105\n") 20).E ≠ (4 : ℚ)) ∧
    (VSD.claimC6Hyp (lchars "G1 X1 Y2 Z3 E4\n; Z!\nG1 X5 E8\nM105\n") 29
        = true ∧
    VSD.latestAxis 'Y' (lchars "G1 X1 Y2 Z3 E4\n; Z!\nG1 X5 E8\nM105\n") 29
        = some 2 ∧
    VSD.getXYZE (lchars "G1 X1 Y2 Z3 E4\n; Z!\nG1 X5 E8\nM105\n") 29 =
      ⟨5, 0, 0, 8⟩ ∧
    (VSD.getXYZE (lchars "G1 X1 Y2 Z3 E4\n; Z!\nG1 X5 E8\nM105\n") 29).Y ≠
      (2 : ℚ)) ∧
    (VSD.claimC6Hyp (lchars "G1 X1 Y2 Z3 E4\nG1 X0 Y0 Z5 E6\nM105\n") 30
        = true ∧
    VSD.latestAxis 'X' (lchars "G1 X1 Y2 Z3 E4\nG1 X0 Y0 Z5 E6\nM105\n") 30
        = some 0 ∧
    VSD.getXYZE (lchars "G1 X1 Y2 Z3 E4\nG1 X0 Y0 Z5 E6\nM105\n") 30 =
      ⟨1, 2, 5, 6⟩ ∧
    (VSD.getXYZE (lchars "G1 X1 Y2 Z3 E4\nG1 X0 Y0 Z5 E6\nM105\n") 30).X ≠
      (0 : ℚ)) := by
  have h1 : VSD.tail_read (lchars "G1 X1 Y2 Z3 E4\n; E9\nM105\n") 20 =
      (lchars "; E9\n", 14) := by decide
  have h2 : VSD.tail_read (lchars "G1 X1 Y2 Z3 E4\n; E9\nM105\n") 14 =
      (lchars "G1 X1 Y2 Z3 E4\n", 1) := by decide
  have p1 : VSD.process_line (lchars "; E9\n") ⟨0, 0, 0, 0⟩ =
      (⟨0, 0, 0, 9⟩, false) := by
    simp +decide [VSD.process_line, VSD.process_tokens_E, VSD.process_tokens_XY,
      VSD.process_tokens_Z, splitOnChar, splitOnCharAux, lchars, startsWith,
      takeUntilChar, stripBoth, pyFloat, isPyWS, digitsVal]
  have p2 : VSD.process_line (lchars "G1 X1 Y2 Z3 E4\n") ⟨0, 0, 0, 9⟩ =
      (⟨1, 2, 3, 9⟩, false) := by
    simp +decide [VSD.process_line, VSD.process_tokens_E, VSD.process_tokens_XY,
      VSD.process_tokens_Z, splitOnChar, splitOnCharAux, lchars, startsWith,
      takeUntilChar, stripBoth, pyFloat, isPyWS, digitsVal]
  have hrun : VSD.getXYZE (lchars "G1 X1 Y2 Z3 E4\n; E9\nM105\n") 20 =
      ⟨1, 2, 3, 9⟩ := by
    calc VSD.getXYZE (lchars "G1 X1 Y2 Z3 E4\n; E9\nM105\n") 20
        = VSD.getXYZE_aux (lchars "G1 X1 Y2 Z3 E4\n; E9\nM105\n") (21 + 1) 20
            ⟨0, 0, 0, 0⟩ := rfl
      _ = VSD.getXYZE_aux (lchars "G1 X1 Y2 Z3 E4\n; E9\nM105\n") (20 + 1) 14
            ⟨0, 0, 0, 9⟩ :=
          VSD.getXYZE_aux_step _ 21 20 14 _ _ _ (by decide) h1 p1
            (by simp +decide [VSD.allFound])
      _ = ⟨1, 2, 3, 9⟩ :=
          VSD.getXYZE_aux_found _ 20 14 1 _ _ _ (by decide) h2 p2
            (by simp +decide [VSD.allFound])
  have h1b : VSD.tail_read (lchars "G1 X1 Y2 Z3 E4\n; Z!\nG1 X5 E8\nM105\n")
      29 = (lchars "G1 X5 E8\n", 19) := by decide
  have h2b : VSD.tail_read (lchars "G1 X1 Y2 Z3 E4\n; Z!\nG1 X5 E8\nM105\n")
      19 = (lchars "; Z!\n", 14) := by decide
  have p1b : VSD.process_line (lchars "G1 X5 E8\n") ⟨0, 0, 0, 0⟩ =
      (⟨5, 0, 0, 8⟩, false) := by
    simp +decide [VSD.process_line, VSD.process_tokens_E, VSD.process_tokens_XY,
      VSD.process_tokens_Z, splitOnChar, splitOnCharAux, lchars, startsWith,
      takeUntilChar, stripBoth, pyFloat, isPyWS, digitsVal]
  have p2b : VSD.process_line (lchars "; Z!\n") ⟨5, 0, 0, 8⟩ =
      (⟨5, 0, 0, 8⟩, true) := by
    simp +decide [VSD.process_line, VSD.process_tokens_E, VSD.process_tokens_XY,
      VSD.process_tokens_Z, splitOnChar, splitOnCharAux, lchars, startsWith,
      takeUntilChar, stripBoth, pyFloat, isPyWS, digitsVal]
  have hrun2 : VSD.getXYZE (lchars "G1 X1 Y2 Z3 E4\n; Z!\nG1 X5 E8\nM105\n")
      29 = ⟨5, 0, 0, 8⟩ := by
    calc VSD.getXYZE (lchars "G1 X1 Y2 Z3 E4\n; Z!\nG1 X5 E8\nM105\n") 29
        = VSD.getXYZE_aux (lchars "G1 X1 Y2 Z3 E4\n; Z!\nG1 X5 E8\nM105\n")
            (30 + 1) 29 ⟨0, 0, 0, 0⟩ := rfl
      _ = VSD.getXYZE_aux (lchars "G1 X1 Y2 Z3 E4\n; Z!\nG1 X5 E8\nM105\n")
            (29 + 1) 19 ⟨5, 0, 0, 8⟩ :=
          VSD.getXYZE_aux_step _ 30 29 19 _ _ _ (by decide) h1b p1b
            (by simp +decide [VSD.allFound])
      _ = ⟨5, 0, 0, 8⟩ :=
          VSD.getXYZE_aux_abort _ 29 19 14 _ _ _ (by decide) h2b p2b
  have h1c : VSD.tail_read (lchars "G1 X1 Y2 Z3 E4\nG1 X0 Y0 Z5 E6\nM105\n")
      30 = (lchars "G1 X0 Y0 Z5 E6\n", 14) := by decide
  have h2c : VSD.tail_read (lchars "G1 X1 Y2 Z3 E4\nG1 X0 Y0 Z5 E6\nM105\n")
      14 = (lchars "G1 X1 Y2 Z3 E4\n", 1) := by decide
  have p1c : VSD.process_line (lchars "G1 X0 Y0 Z5 E6\n") ⟨0, 0, 0, 0⟩ =
      (⟨0, 0, 5, 6⟩, false) := by
    simp +decide [VSD.process_line, VSD.process_tokens_E, VSD.process_tokens_XY,
      VSD.process_tokens_Z, splitOnChar, splitOnCharAux, lchars, startsWith,
      takeUntilChar, stripBoth, pyFloat, isPyWS, digitsVal]
  have p2c : VSD.process_line (lchars "G1 X1 Y2 Z3 E4\n") ⟨0, 0, 5, 6⟩ =
      (⟨1, 2, 5, 6⟩, false) := by
    simp +decide [VSD.process_line, VSD.process_tokens_E, VSD.process_tokens_XY,
      VSD.process_tokens_Z, splitOnChar, splitOnCharAux, lchars, startsWith,
      takeUntilChar, stripBoth, pyFloat, isPyWS, digitsVal]
  have hrun3 : VSD.getXYZE (lchars "G1 X1 Y2 Z3 E4\nG1 X0 Y0 Z5 E6\nM105\n")
      30 = ⟨1, 2, 5, 6⟩ := by
    calc VSD.getXYZE (lchars "G1 X1 Y2 Z3 E4\nG1 X0 Y0 Z5 E6\nM105\n") 30
        = VSD.getXYZE_aux (lchars "G1 X1 Y2 Z3 E4\nG1 X0 Y0 Z5 E6\nM105\n")
            (31 + 1) 30 ⟨0, 0, 0, 0⟩ := rfl
      _ = VSD.getXYZE_aux (lchars "G1 X1 Y2 Z3 E4\nG1 X0 Y0 Z5 E6\nM105\n")
            (30 + 1) 14 ⟨0, 0, 5, 6⟩ :=
          VSD.getXYZE_aux_step _ 31 30 14 _ _ _ (by decide) h1c p1c
            (by simp +decide [VSD.allFound])
      _ = ⟨1, 2, 5, 6⟩ :=
          VSD.getXYZE_aux_found _ 30 14 1 _ _ _ (by decide) h2c p2c
            (by simp +decide [VSD.allFound])
  refine ⟨⟨by decide, ?_, hrun, ?_⟩, ⟨by decide, ?_, hrun2, ?_⟩,
    ⟨by decide, ?_, hrun3, ?_⟩⟩
  · simp +decide [VSD.latestG1E, VSD.linesWithStarts, VSD.linesWithStartsAux,
      splitOnChar, splitOnCharAux, lchars, startsWith, VSD.tokE,
      takeUntilChar, pyFloat, stripBoth, isPyWS, digitsVal]
  · rw [hrun]
    norm_num
  · simp +decide [VSD.latestAxis, VSD.linesWithStarts, VSD.linesWithStartsAux,
      splitOnChar, splitOnCharAux, lchars, startsWith, VSD.tokAxis,
      takeUntilChar, pyFloat, stripBoth, isPyWS, digitsVal]
  · rw [hrun2]
    norm_num
  · simp +decide [VSD.latestAxis, VSD.linesWithStarts, VSD.linesWithStartsAux,
      splitOnChar, splitOnCharAux, lchars, startsWith, VSD.tokAxis,
      takeUntilChar, pyFloat, stripBoth, isPyWS, digitsVal]
  · rw [hrun3]
    norm_num

/-- C6 (amended): for every file assembled from well-formed completed
lines — each terminated by its only newline, free of carriage returns
and of interior suffixes beginning with G0, G1 or ";" — followed by
arbitrary trailing bytes, whenever the backward walk over the
key-prefixed lines completes within them, getXYZE at the boundary
offset returns exactly the result of that walk: the lines beginning
with G0, G1 or ";" are visited latest first, all other lines are
skipped, and each visited line is processed by process_line — E is
taken from its E-starting tokens while E is still zero and the line
mentions E, X and Y from its X- and Y-starting tokens only while X and Y
are both still zero, Z from its Z-starting tokens while Z is still
zero and the line mentions Z; the walk stops once all four values are
nonzero, and a token whose float conversion fails stops it at once
with the values collected so far. -/
theorem C6_tail_scanner_amended (pre : List (List Char))
    (post : List Char) (hwf : VSD.wfLines pre = true)
    (hc : VSD.scanCompletes ((pre.filter VSD.lineMatches).reverse)
      ⟨0, 0, 0, 0⟩ = true) :
    VSD.getXYZE (pre.flatten ++ post) pre.flatten.length =
      VSD.lineScan ((pre.filter VSD.lineMatches).reverse) ⟨0, 0, 0, 0⟩ := by
  unfold VSD.getXYZE
  exact VSD.getXYZE_lines pre post ⟨0, 0, 0, 0⟩ (pre.flatten.length + 2)
    hwf hc (by have := VSD.length_le_flatten_of_wf pre hwf; omega)

/-- Witness for C6 (amended): the file "G1 X1 Y2 Z3 E4\nM105\nG1 E7\n"
viewed at the boundary after its second line; the walk visits the G1
lines latest first, skips M105, and stops on the first line once all
four values are nonzero, returning ⟨1, 2, 3, 7⟩ with E taken from the
later "G1 E7" line. -/
theorem C6_tail_scanner_amended_witness :
    (VSD.wfLines [lchars "G1 X1 Y2 Z3 E4\n", lchars "M105\n",
        lchars "G1 E7\n"] = true ∧
      VSD.scanCompletes
        (([lchars "G1 X1 Y2 Z3 E4\n", lchars "M105\n",
            lchars "G1 E7\n"].filter VSD.lineMatches).reverse)
        ⟨0, 0, 0, 0⟩ = true) ∧
    VSD.getXYZE
        ([lchars "G1 X1 Y2 Z3 E4\n", lchars "M105\n",
            lchars "G1 E7\n"].flatten ++ lchars "M2\n")
        [lchars "G1 X1 Y2 Z3 E4\n", lchars "M105\n",
            lchars "G1 E7\n"].flatten.length =
      VSD.lineScan
        (([lchars "G1 X1 Y2 Z3 E4\n", lchars "M105\n",
            lchars "G1 E7\n"].filter VSD.lineMatches).reverse)
        ⟨0, 0, 0, 0⟩ := by
  have hwf : VSD.wfLines [lchars "G1 X1 Y2 Z3 E4\n", lchars "M105\n",
      lchars "G1 E7\n"] = true := by decide
  have hc : VSD.scanCompletes
      (([lchars "G1 X1 Y2 Z3 E4\n", lchars "M105\n",
          lchars "G1 E7\n"].filter VSD.lineMatches).reverse)
      ⟨0, 0, 0, 0⟩ = true := by
    simp +decide [VSD.scanCompletes, VSD.lineMatches, VSD.process_line,
      VSD.process_tokens_E, VSD.process_tokens_XY, VSD.process_tokens_Z,
      VSD.allFound, splitOnChar, splitOnCharAux, lchars, startsWith,
      takeUntilChar, stripBoth, pyFloat, isPyWS, digitsVal]
  exact ⟨⟨hwf, hc⟩,
    C6_tail_scanner_amended [lchars "G1 X1 Y2 Z3 E4\n", lchars "M105\n",
      lchars "G1 E7\n"] (lchars "M2\n") hwf hc⟩

/-!  ## Crash-recovery checkpoint reader (work_handler, recovery block)

The checkpoint file holds line records; each line is stripped of quotes
and newlines, lines longer than 10 characters are parsed with eval (an
external Python primitive, supplied as an oracle `evalRec`; a parse
failure raises, aborting the whole recovery), and the record with the
greatest file_position wins. -/

namespace VSD

/-- A parsed checkpoint record as far as the reader uses it:
file_position (with the dict lookup default 0 already applied) and the
line_pos slot tag. -/
structure CkptRecord where
  file_position : ℕ
  line_pos : ℕ
deriving DecidableEq, Repr

/-- The per-line processing of the recovery reader: strip quotes and
newlines, keep lines longer than 10 characters, eval each; a failure of
eval aborts the whole block (none). -/
def parse_ckpt_lines (evalRec : List Char → Option CkptRecord) :
    List (List Char) → Option (List CkptRecord)
  | [] => some []
  | l :: r =>
    let cleaned := stripBoth (fun c => c = '\n')
      (stripBoth (fun c => c = '\'') l)
    if cleaned.length > 10 then
      match evalRec cleaned with
      | none => none
      | some rec => (parse_ckpt_lines evalRec r).map (fun rest => rec :: rest)
    else parse_ckpt_lines evalRec r

/-- The selection fold of the recovery reader: the first record seeds
info, a later record replaces it only when its file_position is
strictly greater. -/
def select_record (recs : List CkptRecord) : Option CkptRecord :=
  recs.foldl
    (fun info obj =>
      match info with
      | none => some obj
      | some i => if obj.file_position > i.file_position then some obj
          else some i)
    none

/-- The file_position the recovery block restores: the selected
record's file_position, defaulting to 0 when no record was parsed; none
when eval raised (recovery aborted, file_position untouched). -/
def recovered_file_position (evalRec : List Char → Option CkptRecord)
    (lines : List (List Char)) : Option ℕ :=
  (parse_ckpt_lines evalRec lines).map
    (fun recs => ((select_record recs).map (fun r => r.file_position)).getD 0)

theorem select_record_aux (recs : List CkptRecord) (r0 : CkptRecord) :
    ∃ r, recs.foldl
        (fun info obj =>
          match info with
          | none => some obj
          | some i => if obj.file_position > i.file_position then some obj
              else some i)
        (some r0) = some r ∧
      (r = r0 ∨ r ∈ recs) ∧ r0.file_position ≤ r.file_position ∧
      ∀ x ∈ recs, x.file_position ≤ r.file_position := by
  induction recs generalizing r0 with
  | nil => exact ⟨r0, rfl, Or.inl rfl, le_refl _, by simp⟩
  | cons a l ih =>
    by_cases hgt : a.file_position > r0.file_position
    · obtain ⟨r, hfold, hmem, hle, hall⟩ := ih a
      refine ⟨r, ?_, ?_, ?_, ?_⟩
      · simpa [hgt] using hfold
      · rcases hmem with h | h
        · exact Or.inr (by simp [h])
        · exact Or.inr (by simp [h])
      · exact le_trans (le_of_lt hgt) hle
      · intro x hx
        rcases List.mem_cons.mp hx with h | h
        · subst h; exact hle
        · exact hall x h
    · obtain ⟨r, hfold, hmem, hle, hall⟩ := ih r0
      refine ⟨r, ?_, ?_, ?_, ?_⟩
      · simpa [hgt] using hfold
      · rcases hmem with h | h
        · exact Or.inl h
        · exact Or.inr (by simp [h])
      · exact hle
      · intro x hx
        rcases List.mem_cons.mp hx with h | h
        · subst h; exact le_trans (le_of_not_lt hgt) hle
        · exact hall x h

end VSD

/-- C5: when every long checkpoint line parses and at least one record
is present, the reader selects a record whose file_position is maximal
among all records, and the recovery block restores the executor
file_position to exactly that value. -/
theorem C5_checkpoint_reader_max (evalRec : List Char → Option VSD.CkptRecord)
    (lines : List (List Char)) (recs : List VSD.CkptRecord)
    (hparse : VSD.parse_ckpt_lines evalRec lines = some recs)
    (hne : recs ≠ []) :
    ∃ r, VSD.select_record recs = some r ∧ r ∈ recs ∧
      (∀ x ∈ recs, x.file_position ≤ r.file_position) ∧
      VSD.recovered_file_position evalRec lines = some r.file_position := by
  cases recs with
  | nil => exact absurd rfl hne
  | cons r0 rest =>
    obtain ⟨r, hfold, hmem, hle0, hall⟩ := VSD.select_record_aux rest r0
    have hsel : VSD.select_record (r0 :: rest) = some r := by
      unfold VSD.select_record
      simpa using hfold
    refine ⟨r, hsel, ?_, ?_, ?_⟩
    · rcases hmem with h | h
      · simp [h]
      · exact List.mem_cons_of_mem _ h
    · intro x hx
      rcases List.mem_cons.mp hx with h | h
      · subst h
        exact hle0
      · exact hall x h
    · unfold VSD.recovered_file_position
      rw [hparse]
      simp [hsel]

/-- Witness for C5: two records parsed from two long lines through a
concrete eval oracle taking file_position from the line length. -/
theorem C5_checkpoint_reader_max_witness :
    ∃ r, VSD.select_record [⟨13, 1⟩, ⟨15, 2⟩] = some r ∧
      r ∈ [VSD.CkptRecord.mk 13 1, VSD.CkptRecord.mk 15 2] ∧
      (∀ x ∈ [VSD.CkptRecord.mk 13 1, VSD.CkptRecord.mk 15 2],
        x.file_position ≤ r.file_position) ∧
      VSD.recovered_file_position
        (fun l => some ⟨l.length, if l.length = 13 then 1 else 2⟩)
        [lchars "0123456789012", lchars "012345678901234"] =
        some r.file_position :=
  C5_checkpoint_reader_max
    (fun l => some ⟨l.length, if l.length = 13 then 1 else 2⟩)
    [lchars "0123456789012", lchars "012345678901234"]
    [⟨13, 1⟩, ⟨15, 2⟩] (by decide) (by decide)

/-!  ## The work loop (`VirtualSD.work_handler`)

The handler is modelled in three parts mirroring the source: a preamble
(config/recovery/note_start/seek), the while loop (one `loop_step` per
iteration: refill, mutex wait, or dispatch of one line), and the
epilogue `finish`.  External effects are trace events; the g-code
dispatcher is an oracle giving each run_script call its outcome. -/

namespace WL

/-- Outcome of one call into the g-code dispatcher. -/
inductive DOutcome
  | ok
  | err (msg : String)
  | exc
deriving DecidableEq, Repr

/-- Trace events: dispatches, checkpoint-file writes, filename-save
writes, responses, logs, scripts, reactor yields and the external
capture/video calls. -/
inductive Ev
  | dispatch (line : List Char) (outcome : DOutcome)
  | ckptCreate
  | ckptWrite (file_position : ℕ) (line_pos : ℕ)
  | saveNameFull (fan : List Char) (filament : ℚ) (duration : ℚ)
  | saveNameFan (fan : List Char)
  | saveName
  | respond (s : String)
  | log (s : String)
  | script (s : String)
  | reactorPause
  | createVideo
  | capture
  | captureAsync
  | removeCkpt
  | removeNameSave
  | restoreState (x y z e : ℚ)
  | rmVideoFile
  | delayedReset
deriving DecidableEq, Repr

/-- The environment of one work_handler run: the resolved time-lapse
configuration (the yaml try/except of lines 393-422 collapsed to its
result), the print_switch flag, the serial comparison, the per-call
dispatcher oracle, the mutex oracle per loop iteration, concurrent
set_file_position mutations, the toolhead position oracle, and the
recovery inputs.  /dev/video0 presence is a constant here (the source
re-probes it; a device that appears or vanishes mid-print is outside
this model). -/
structure Env where
  print_switch : Bool
  enable_delay_photography : Bool
  serial_match : Bool
  timelapse_postion : ℕ
  frequency : ℕ
  z_upraise : ℤ
  extruder : ℚ
  extruder_speed : ℤ
  video0 : Bool
  mutex_busy : ℕ → Bool
  dispatch : ℕ → DOutcome
  set_file_pos : ℕ → Option ℕ
  toolhead : ℕ → ℚ × ℚ × ℚ × ℚ
  index : String
  start_time : ℤ
  end_time : ℤ
  info_file : Option PS.Info
  ckpt_lines : List (List Char)
  evalRec : List Char → Option VSD.CkptRecord
  now : ℚ
  epos : ℚ
  efactor : ℚ

/-- The loop state: the VirtualSD object fields, the locals of
work_handler (pending split lines in file order — the source keeps them
reversed and pops from the tail, which is the same queue —
partial_input, lastE, line_pos, layer_count, video0_status), oracle
indices, the save-file existence flags, the captured end_filename, the
event trace, and a ghost list of the successfully dispatched lines. -/
structure W where
  st : VSD.State
  lines : List (List Char)
  pending : List Char
  lastE : ℚ
  line_pos : ℕ
  layer_count : ℕ
  video0_status : Bool
  iter : ℕ
  script_idx : ℕ
  fs : VSD.Fs
  end_filename : String
  trace : List Ev
  hist : List (List Char)
deriving Repr

/-- How a run of the loop ended. -/
inductive ExitK
  | eof
  | paused
  | gcodeError (msg : String)
  | genExc
  | seekAbort
  | fuelOut
deriving DecidableEq, Repr

/-- The layer-marker prefixes. -/
def LAYER_KEYS : List (List Char) :=
  [lchars ";LAYER:", lchars "; layer:", lchars "; LAYER:",
   lchars ";AFTER_LAYER_CHANGE"]

/-- The guard of the checkpoint write (source line 579): print_switch
on, at least 20 G1 lines dispatched, command counter on a 9-tick. -/
def ckpt_cond (env : Env) (w : W) : Bool :=
  env.print_switch && decide (w.st.count_G1 ≥ 20) &&
    decide (w.st.count % 9 = 0)

/-- The guard of the G1-counter filename-save refresh (source line
589). -/
def save19_cond (env : Env) (w : W) : Bool :=
  env.print_switch && decide (w.st.count_G1 = 19)

/-- The guard of the 29-tick filename-save refresh (source line 591). -/
def save29_cond (env : Env) (w : W) : Bool :=
  env.print_switch && decide (w.st.count % 29 = 0)

/-- The checkpoint block at the top of the dispatch path (source lines
579-592): with print_switch on, a checkpoint record is written when at
least 20 G1 lines have been dispatched and the command counter is on a
9-tick, creating the file first if absent and alternating line_pos; the
filename-save file is refreshed with fan/filament/duration while the G1
counter reads 19 and on every 29-tick of the command counter.  The
counters are not modified inside the block, so the three guards all
read the entry state. -/
def ckpt_stage (env : Env) (ps : PS.State) (w : W) : W :=
  let w1 :=
    if ckpt_cond env w then
      let w0 :=
        if w.fs.gcode_coordinate_save then w
        else { w with fs := { w.fs with gcode_coordinate_save := true },
                      trace := w.trace ++ [.ckptCreate] }
      { w0 with
          trace := w0.trace ++ [.ckptWrite w0.st.file_position w0.line_pos],
          line_pos := if w0.line_pos = 1 then 2 else 1 }
    else w
  let w2 :=
    if save19_cond env w then
      { w1 with
          trace := w1.trace ++
            [.saveNameFull w1.st.fan_state ps.filament_used ps.print_duration],
          fs := { w1.fs with print_file_name_save := true } }
    else w1
  if save29_cond env w then
    { w2 with
        trace := w2.trace ++
          [.saveNameFull w2.st.fan_state ps.filament_used ps.print_duration],
        fs := { w2.fs with print_file_name_save := true } }
  else w2

/-- The lastE / fan block (source lines 595-605): a G1 line containing E
updates lastE from its last token when that token is an E value (a
conversion failure is swallowed); otherwise an M106 line is remembered
as the fan state and, with print_switch on, pushed to the filename-save
file. -/
def lastE_stage (env : Env) (w : W) (line : List Char) : W :=
  if startsWith (lchars "G1") line && line.contains 'E' then
    let tok := (splitOnChar ' ' line).getLastD []
    if startsWith (lchars "E") tok then
      match pyFloat ((stripBoth (fun c => c = '\n')
          (stripBoth (fun c => c = '\r') tok)).drop 1) with
      | some v => { w with lastE := v }
      | none => w
    else w
  else if startsWith (lchars "M106") line then
    let fan := stripBoth (fun c => c = '\n')
      (stripBoth (fun c => c = '\r') line)
    let w1 := { w with st := { w.st with fan_state := fan } }
    if env.print_switch then
      { w1 with trace := w1.trace ++ [.saveNameFan fan],
                fs := { w1.fs with print_file_name_save := true } }
    else w1
  else w

/-- One gcode.run_script call through the dispatcher oracle. -/
def run_one_script (env : Env) (w : W) (s : String) : W × DOutcome :=
  ({ w with script_idx := w.script_idx + 1, trace := w.trace ++ [.script s] },
   env.dispatch w.script_idx)

/-- A sequence of run_script calls; the first non-ok outcome aborts. -/
def run_scripts (env : Env) (w : W) : List String → W ⊕ (W × DOutcome)
  | [] => .inl w
  | s :: r =>
    let p := run_one_script env w s
    match p.2 with
    | .ok => run_scripts env p.1 r
    | o => .inr (p.1, o)

/-- The park-mode time-lapse excursion (source lines 621-666): retract,
lift, travel to the park position, capture, travel back, lower, undo
the retract; every emitted command goes through the dispatcher and its
error aborts the work loop like any dispatch error. -/
def excursion (env : Env) (w : W) : W ⊕ (W × DOutcome) :=
  let th := env.toolhead w.iter
  let pre : List String :=
    ["G1 F" ++ toString env.extruder_speed ++ " E" ++
       pyFloatRepr (w.lastE + env.extruder),
     "M400",
     "G1 F3000 Z" ++ pyFloatRepr (th.2.2.1 + (env.z_upraise : ℚ)),
     "M400",
     "G0 X5 Y150 F15000",
     "M400"]
  let post : List String :=
    ["G0 X" ++ pyFloatRepr th.1 ++ " Y" ++ pyFloatRepr th.2.1 ++ " F15000",
     "M400",
     "G1 F3000 Z" ++ pyFloatRepr th.2.2.1,
     "M400",
     "G1 F" ++ toString env.extruder_speed ++ " E" ++ pyFloatRepr w.lastE]
  match run_scripts env w pre with
  | .inr p => .inr p
  | .inl w1 => run_scripts env { w1 with trace := w1.trace ++ [.capture] } post

/-- The layer-key interception (source lines 606-679).  The video0
presence probe can re-enable a cleared flag; when time-lapse is enabled,
the device present and the serial matching, the first layer key
prefixing the line (the keys are mutually exclusive prefixes, and the
dead ";LAYER_COUNT:" guard never fires) triggers — on every
frequency-th layer — the park excursion (only once 20 G1 lines have
been dispatched) or an asynchronous capture; a vanished device skips
the layer without counting it (the Python continue).  A frequency of 0
raises ZeroDivisionError, caught by the bare except as a generic
failure. -/
def layer_stage (env : Env) (w0 : W) (line : List Char) :
    W ⊕ (W × DOutcome) :=
  let w := { w0 with video0_status :=
    if w0.video0_status = false && env.video0 then true else w0.video0_status }
  if env.enable_delay_photography && w.video0_status && env.serial_match then
    match LAYER_KEYS.find? (fun k => startsWith k line) with
    | none => .inl w
    | some _ =>
      if env.frequency = 0 then .inr (w, .exc)
      else if w.layer_count % env.frequency = 0 then
        if !env.video0 then .inl { w with video0_status := false }
        else if env.timelapse_postion ≠ 0 then
          if w.st.count_G1 ≥ 20 then
            match excursion env w with
            | .inr p => .inr p
            | .inl w2 => .inl { w2 with layer_count := w2.layer_count + 1 }
          else .inl { w with layer_count := w.layer_count + 1 }
        else
          .inl { w with trace := w.trace ++ [.captureAsync],
                        layer_count := w.layer_count + 1 }
      else .inl { w with layer_count := w.layer_count + 1 }
  else .inl w

/-- The except-gcode-error handler of the dispatch path (source lines
684-690): remove both save files (when present) and leave the loop with
error_message set. -/
def error_abort (w : W) (m : String) : W × ExitK :=
  ({ w with
      fs := ⟨false, false⟩,
      trace := w.trace ++
        (if w.fs.gcode_coordinate_save then [Ev.removeCkpt] else []) ++
        (if w.fs.print_file_name_save then [Ev.removeNameSave] else []) },
   .gcodeError m)

/-- The dispatch of one pending line (the try block, source lines
578-705): checkpoint block, lastE/fan block, layer interception, then
the line itself through the dispatcher; on success the counters
advance, cmd_from_sd clears, file_position moves to next_file_position
(re-seeking and flushing the split buffers if a concurrent
set_file_position changed it).  `nfp` is the local next_file_position
computed by the caller. -/
def dispatch_line (env : Env) (ps : PS.State) (w : W) (line : List Char)
    (nfp : ℕ) : W ⊕ (W × ExitK) :=
  let w1 := ckpt_stage env ps w
  let w2 := lastE_stage env w1 line
  match layer_stage env w2 line with
  | .inr (we, .err m) => .inr (error_abort we m)
  | .inr (we, _) => .inr (we, .genExc)
  | .inl w3 =>
    let o := env.dispatch w3.script_idx
    let w4 := { w3 with script_idx := w3.script_idx + 1,
                        trace := w3.trace ++ [.dispatch line o] }
    match o with
    | .err m => .inr (error_abort w4 m)
    | .exc => .inr (w4, .genExc)
    | .ok =>
      let st1 := { w4.st with count := w4.st.count + 1 }
      let st2 :=
        if st1.count_G1 < 20 && startsWith (lchars "G1") line then
          { st1 with count_G1 := st1.count_G1 + 1 }
        else st1
      let w5 := { w4 with st := st2, hist := w4.hist ++ [line] }
      let nfp2 := (env.set_file_pos w5.iter).getD w5.st.next_file_position
      let st3 := { w5.st with cmd_from_sd := false,
                              next_file_position := nfp2,
                              file_position := nfp2 }
      if nfp2 ≠ nfp then
        match st3.current_file with
        | none => .inr ({ w5 with st := { st3 with work_timer := false } },
            .seekAbort)
        | some fh =>
          let fh3 : VSD.FileH := { fh with read_pos := nfp2 }
          .inl { w5 with st := { st3 with current_file := some fh3 },
                         lines := [], pending := [], iter := w5.iter + 1 }
      else .inl { w5 with st := st3, iter := w5.iter + 1 }

/-- One iteration of the while loop (source lines 542-705): pause-flag
test, buffer refill with end-of-file handling, dispatcher-mutex wait,
or dispatch of the next line. -/
def loop_step (env : Env) (ps : PS.State) (w : W) : W ⊕ (W × ExitK) :=
  if w.st.must_pause_work then .inr (w, .paused)
  else
    match w.lines with
    | [] =>
      match w.st.current_file with
      | none => .inr (w, .genExc)
      | some fh =>
        let data := (fh.content.drop fh.read_pos).take 8192
        if data.isEmpty then
          let w1 := { w with st := { w.st with current_file := none } }
          let w2 := { w1 with
              trace := w1.trace ++
                [.log "Finished SD card print", .respond "Done printing file"]
                ++ (if w1.fs.gcode_coordinate_save then [Ev.removeCkpt] else [])
                ++ (if w1.fs.print_file_name_save then [Ev.removeNameSave]
                    else []),
              fs := ⟨false, false⟩ }
          let w3 :=
            if !w2.st.do_resume_status && env.enable_delay_photography &&
                env.serial_match then
              { w2 with trace := w2.trace ++ [.createVideo] }
            else w2
          .inr (w3, .eof)
        else
          let fh2 : VSD.FileH := { fh with read_pos := fh.read_pos + data.length }
          let parts := splitOnChar '\n' data
          let parts0 := w.pending ++ parts.headD []
          let alll := parts0 :: parts.tail
          .inl { w with st := { w.st with current_file := some fh2 },
                        lines := alll.dropLast, pending := alll.getLastD [],
                        trace := w.trace ++ [.reactorPause],
                        iter := w.iter + 1 }
    | line :: rest =>
      if env.mutex_busy w.iter then
        .inl { w with iter := w.iter + 1, trace := w.trace ++ [.reactorPause] }
      else
        let st1 := { w.st with cmd_from_sd := true }
        let nfp := st1.file_position + line.length + 1
        let st2 := { st1 with next_file_position := nfp }
        dispatch_line env ps { w with st := st2, lines := rest } line nfp

/-- The while loop with fuel. -/
def run_loop (env : Env) (ps : PS.State) : ℕ → W → W × ExitK
  | 0, w => (w, .fuelOut)
  | fuel + 1, w =>
    match loop_step env ps w with
    | .inl w2 => run_loop env ps fuel w2
    | .inr r => r

/-- First index at which pat occurs in l (models re search; only the
first occurrence is considered). -/
def findSub (pat : List Char) : List Char → Option ℕ
  | [] => if pat = [] then some 0 else none
  | c :: r =>
    if List.isPrefixOf pat (c :: r) then some 0
    else (findSub pat r).map (fun i => i + 1)

/-- Model of the Python int() string conversion on the plain decimal
grammar. -/
def pyInt (l : List Char) : Option ℤ :=
  let t := stripBoth isPyWS l
  let st : ℤ × List Char :=
    match t with
    | '-' :: r => (-1, r)
    | '+' :: r => (1, r)
    | _ => (1, t)
  if st.2 ≠ [] && st.2.all isDigitCh then some (st.1 * digitsVal st.2)
  else none

/-- The lazy capture of re.findall(pat ++ "(.+?)\n", line): the
non-empty text between the first occurrence of pat and the next
newline. -/
def capture_after (pat line : List Char) : Option (List Char) :=
  match findSub pat line with
  | none => none
  | some i =>
    let after := line.drop (i + pat.length)
    let cap := takeUntilChar '\n' after
    if after.contains '\n' && cap ≠ [] then some cap else none

/-- The lines of the file as readline returns them: each with its
trailing newline, the final fragment without. -/
def physLines (content : List Char) : List (List Char) :=
  let parts := splitOnChar '\n' content
  (parts.dropLast.map (fun l => l ++ ['\n'])) ++ [parts.getLastD []]

/-- The scanning loop of get_print_temperature: up to 50000 readline
calls, looking for M109/M190/M104/M140 S-values (int conversion failure
makes the whole function fall back to bed 60, nozzle 200), stopping
early when both bed and nozzle are truthy. -/
def gpt_loop : ℕ → List (List Char) → ℤ → ℤ → ℤ × ℤ
  | 0, _, b, n => (b, n)
  | _ + 1, [], b, n => (b, n)
  | c + 1, l :: r, b, n =>
    match capture_after (lchars "M109 S") l with
    | some cap =>
      match pyInt cap with
      | some v => gpt_loop c r b v
      | none => (60, 200)
    | none =>
      match capture_after (lchars "M190 S") l with
      | some cap =>
        match pyInt cap with
        | some v => gpt_loop c r v n
        | none => (60, 200)
      | none =>
        match capture_after (lchars "M104 S") l with
        | some cap =>
          match pyInt cap with
          | some v => gpt_loop c r b v
          | none => (60, 200)
        | none =>
          match capture_after (lchars "M140 S") l with
          | some cap =>
            match pyInt cap with
            | some v => gpt_loop c r v n
            | none => (60, 200)
          | none =>
            if b ≠ 0 && n ≠ 0 then (b, n) else gpt_loop c r b n

/-- VirtualSD.get_print_temperature on the file content: (bed, nozzle). -/
def get_print_temperature (content : List Char) : ℤ × ℤ :=
  gpt_loop 50000 (physLines content) 0 0

/-- VirtualSD.file_path (None rendered as Python would print it). -/
def file_path_str (st : VSD.State) : String :=
  (st.current_file.map (fun f => f.name)).getD "None"

/-- Fresh loop-local state entering the while loop. -/
def mk_loop_state (st : VSD.State) (fs : VSD.Fs) (evs : List Ev)
    (endf : String) : W :=
  { st := st, lines := [], pending := [], lastE := 0, line_pos := 1,
    layer_count := 0, video0_status := true, iter := 0, script_idx := 0,
    fs := fs, end_filename := endf, trace := evs, hist := [] }

/-- Result of the work_handler preamble. -/
structure PreRes where
  w : W
  ps : PS.State
  seek_ok : Bool
deriving Repr

/-- The preamble of work_handler (source lines 388-541): the resolved
time-lapse config and print_switch are in `env`; the stale-video
cleanup probe; the crash-recovery block (note_start with the sidecar,
checkpoint parsing and best-record selection, temperature re-emission,
position restore or — if cancel_print_state — checkpoint removal; any
exception inside is logged and the loop still runs) or a plain
note_start; the filename-save record; the timer unregistration and the
seek to file_position, whose failure (here: no open file) returns
immediately with the work timer cleared and no epilogue. -/
def work_preamble (env : Env) (st0 : VSD.State) (ps : PS.State)
    (fs : VSD.Fs) : PreRes :=
  let ev0 : List Ev :=
    if !st0.do_resume_status && !fs.gcode_coordinate_save &&
        env.enable_delay_photography && env.serial_match then [.rmVideoFile]
    else []
  let pr : VSD.State × PS.State × VSD.Fs × List Ev :=
    if env.print_switch && !st0.do_resume_status &&
        fs.gcode_coordinate_save then
      let ps1 := PS.note_start env.now env.epos env.info_file ps
      match VSD.parse_ckpt_lines env.evalRec env.ckpt_lines with
      | none => (st0, ps1, fs, ev0)
      | some recs =>
        let fp := ((VSD.select_record recs).map
          (fun r => r.file_position)).getD 0
        let st1 := { st0 with file_position := fp }
        match st0.current_file with
        | none => (st1, ps1, fs, ev0)
        | some fh =>
          let t := get_print_temperature fh.content
          let ev1 := ev0 ++ [.script ("M140 S" ++ toString t.1),
            .script ("M109 S" ++ toString t.2)]
          if !st0.cancel_print_state then
            let xyze := VSD.getXYZE fh.content st1.file_position
            (st1, ps1, fs,
             ev1 ++ [.restoreState xyze.X xyze.Y xyze.Z xyze.E])
          else
            (st1, ps1, ⟨false, false⟩,
             ev1 ++ (if fs.gcode_coordinate_save then [Ev.removeCkpt] else [])
                 ++ (if fs.print_file_name_save then [Ev.removeNameSave]
                     else []))
    else
      (st0, PS.note_start env.now env.epos none ps, fs, ev0)
  let stA := pr.1
  let psA := pr.2.1
  let fsA : VSD.Fs :=
    if env.print_switch then { pr.2.2.1 with print_file_name_save := true }
    else pr.2.2.1
  let evA : List Ev :=
    if env.print_switch then pr.2.2.2 ++ [Ev.saveName] else pr.2.2.2
  match stA.current_file with
  | none =>
    { w := mk_loop_state { stA with work_timer := false } fsA evA
        (file_path_str stA),
      ps := psA, seek_ok := false }
  | some fh =>
    let fh2 : VSD.FileH := { fh with read_pos := stA.file_position }
    let stS := { stA with current_file := some fh2 }
    { w := mk_loop_state stS fsA evA (file_path_str stS), ps := psA,
      seek_ok := true }

/-- The epilogue of work_handler (source lines 706-737): possible
cancel-path video render, exit logs, counter and flag resets, timer
disarm, then — keyed on how the loop ended — the error notification
with the structured print_error_exit log line, the pause notification
(file still open), or the completion notification with the delayed
reset thread. -/
def finish (env : Env) (ps : PS.State) (w : W) (ek : ExitK) : W × PS.State :=
  let w1 :=
    if w.st.do_cancel_status && env.enable_delay_photography &&
        env.serial_match then
      { w with trace := w.trace ++ [Ev.createVideo] }
    else w
  let w2 := { w1 with trace := w1.trace ++
    [Ev.log ("Exiting SD card print (position " ++
       toString w1.st.file_position ++ ")"),
     .log ("filename:" ++ w1.end_filename ++ " end print")] }
  let stR : VSD.State := { w2.st with
    count := 0, count_G1 := 0, do_resume_status := false,
    do_cancel_status := false, work_timer := false, cmd_from_sd := false }
  let w3 := { w2 with st := stR }
  match ek with
  | .gcodeError m =>
    let msg := "print_error_exit|" ++ env.index ++ "|" ++ w3.end_filename ++
      "|" ++ toString env.start_time ++ "|" ++ toString env.end_time ++
      "|1|" ++ m
    ({ w3 with trace := w3.trace ++
        [Ev.log ("file:" ++ w3.end_filename ++ ",error:" ++ m), Ev.log msg] },
     PS.note_error m env.now ps)
  | _ =>
    if w3.st.current_file.isSome then
      (w3, PS.note_pause env.now env.epos env.efactor ps)
    else
      ({ w3 with trace := w3.trace ++ [Ev.delayedReset] },
       PS.note_complete env.now ps)

/-- VirtualSD.work_handler: preamble, loop, epilogue.  A failing seek
skips the epilogue entirely (the source returns NEVER there). -/
def work_handler (env : Env) (fuel : ℕ) (st : VSD.State) (ps : PS.State)
    (fs : VSD.Fs) : W × PS.State × ExitK :=
  let pre := work_preamble env st ps fs
  if pre.seek_ok then
    let r := run_loop env pre.ps fuel pre.w
    let f := finish env pre.ps r.1 r.2
    (f.1, f.2, r.2)
  else (pre.w, pre.ps, .seekAbort)

/-- Any gcode-error exit of one loop iteration leaves both save files
absent (they are removed in the except handler before the loop breaks). -/
theorem dispatch_line_error_fs (env : Env) (ps : PS.State) (w : W)
    (line : List Char) (nfp : ℕ) (w2 : W) (m : String)
    (h : dispatch_line env ps w line nfp = .inr (w2, .gcodeError m)) :
    w2.fs = ⟨false, false⟩ := by
  unfold dispatch_line error_abort at h
  simp only [] at h
  repeat' split at h <;>
    first
      | (simp at h; done)
      | (simp at h; obtain ⟨h1, h2⟩ := h; subst h1; rfl)
      | skip

theorem loop_step_error_fs (env : Env) (ps : PS.State) (w w2 : W)
    (m : String) (h : loop_step env ps w = .inr (w2, .gcodeError m)) :
    w2.fs = ⟨false, false⟩ := by
  unfold loop_step at h
  split at h
  · simp at h
  · split at h
    · split at h
      · simp at h
      · simp only [] at h
        split at h
        · simp at h
        · simp at h
    · split at h
      · simp at h
      · exact dispatch_line_error_fs env ps _ _ _ w2 m h

/-- Any gcode-error exit of the whole loop leaves both save files
absent. -/
theorem run_loop_error_fs (env : Env) (ps : PS.State) (fuel : ℕ) (w : W)
    (m : String) (h : (run_loop env ps fuel w).2 = .gcodeError m) :
    (run_loop env ps fuel w).1.fs = ⟨false, false⟩ := by
  induction fuel generalizing w with
  | zero => simp [run_loop] at h
  | succ n ih =>
    unfold run_loop at h ⊢
    cases hs : loop_step env ps w with
    | inl w2 =>
      rw [hs] at h
      exact ih w2 h
    | inr r =>
      rw [hs] at h
      obtain ⟨rw2, rek⟩ := r
      have hek : rek = ExitK.gcodeError m := h
      subst hek
      exact loop_step_error_fs env ps w rw2 m hs

/-- note_start always leaves print_start_time set. -/
theorem note_start_pst (now epos : ℚ) (info : Option PS.Info)
    (ps : PS.State) :
    (PS.note_start now epos info ps).print_start_time.isSome = true := by
  unfold PS.note_start
  cases hp : ps.print_start_time <;>
    cases info <;>
    simp [hp] <;>
    first
      | (rename_i i
         cases i.last_print_duration <;> simp <;> split <;> simp)
      | (split <;> simp [hp])

/-- note_error on a state with print_start_time set records the error
state and message. -/
theorem note_error_records (m : String) (now : ℚ) (ps : PS.State)
    (h : ps.print_start_time.isSome = true) :
    (PS.note_error m now ps).state = "error" ∧
    (PS.note_error m now ps).error_message = m := by
  unfold PS.note_error PS.note_finish
  split
  · rename_i hp
    rw [hp] at h
    simp at h
  · simp only []
    split <;> exact ⟨rfl, rfl⟩

/-- The preamble always runs note_start, so print_start_time is set at
loop entry. -/
theorem work_preamble_pst (env : Env) (st : VSD.State) (ps : PS.State)
    (fs : VSD.Fs) :
    (work_preamble env st ps fs).ps.print_start_time.isSome = true := by
  unfold work_preamble
  simp only []
  repeat' split
  all_goals exact note_start_pst _ _ _ _

/-- The error epilogue: PrintStats is notified, the save-file flags and
end_filename pass through, and the structured print_error_exit log line
is appended. -/
theorem finish_error (env : Env) (ps : PS.State) (w : W) (m : String) :
    (finish env ps w (.gcodeError m)).2 = PS.note_error m env.now ps ∧
    (finish env ps w (.gcodeError m)).1.fs = w.fs ∧
    (finish env ps w (.gcodeError m)).1.end_filename = w.end_filename ∧
    Ev.log ("print_error_exit|" ++ env.index ++ "|" ++ w.end_filename ++
        "|" ++ toString env.start_time ++ "|" ++ toString env.end_time ++
        "|1|" ++ m) ∈ (finish env ps w (.gcodeError m)).1.trace := by
  unfold finish
  split <;> simp [List.mem_append]

/-- The run state of a loop-step outcome. -/
def stateOf : W ⊕ (W × ExitK) → W
  | .inl w => w
  | .inr p => p.1

/-- The run state of a dispatch-stage outcome. -/
def stateOfD : W ⊕ (W × DOutcome) → W
  | .inl w => w
  | .inr p => p.1

/-- Whether an event list contains a checkpoint-record write. -/
def hasCkptWrite (evs : List Ev) : Bool :=
  evs.any fun e => match e with
    | .ckptWrite _ _ => true
    | _ => false

/-- Whether an event list contains a full filename-save write. -/
def hasSaveFull (evs : List Ev) : Bool :=
  evs.any fun e => match e with
    | .saveNameFull _ _ _ => true
    | _ => false

/-- Number of dispatched lines in the ghost history that start with
G1. -/
def numG1 (hist : List (List Char)) : ℕ :=
  hist.countP fun l => startsWith (lchars "G1") l

/-- The ghost-history invariant: the command counter counts the
dispatched lines and the G1 counter is the G1 count saturated at 20
(the source stops incrementing it there). -/
def histInvB (w : W) : Bool :=
  decide (w.st.count = w.hist.length) &&
    decide (w.st.count_G1 = min 20 (numG1 w.hist))

/-- Whether this loop iteration reaches the dispatch path: no pause
request, a split line pending, dispatcher mutex free. -/
def isDispatchIter (env : Env) (w : W) : Bool :=
  !w.st.must_pause_work && !w.lines.isEmpty && !env.mutex_busy w.iter

/-- The events one loop iteration appends to the trace. -/
def newEvents (env : Env) (ps : PS.State) (w : W) : List Ev :=
  (stateOf (loop_step env ps w)).trace.drop w.trace.length

/-- The events the checkpoint block emits. -/
def ckpt_events (env : Env) (ps : PS.State) (w : W) : List Ev :=
  (if ckpt_cond env w then
     (if w.fs.gcode_coordinate_save then [] else [Ev.ckptCreate]) ++
       [Ev.ckptWrite w.st.file_position w.line_pos]
   else []) ++
  ((if save19_cond env w then
      [Ev.saveNameFull w.st.fan_state ps.filament_used ps.print_duration]
    else []) ++
   (if save29_cond env w then
      [Ev.saveNameFull w.st.fan_state ps.filament_used ps.print_duration]
    else []))

theorem hasCkptWrite_append (a b : List Ev) :
    hasCkptWrite (a ++ b) = (hasCkptWrite a || hasCkptWrite b) := by
  simp [hasCkptWrite]

theorem hasSaveFull_append (a b : List Ev) :
    hasSaveFull (a ++ b) = (hasSaveFull a || hasSaveFull b) := by
  simp [hasSaveFull]

theorem ckptWrite_not_mem (evs : List Ev) (fp lp : ℕ)
    (h : hasCkptWrite evs = false) : Ev.ckptWrite fp lp ∉ evs := by
  intro hm
  have ht : hasCkptWrite evs = true := by
    unfold hasCkptWrite
    exact List.any_eq_true.mpr ⟨_, hm, rfl⟩
  rw [h] at ht
  simp at ht

theorem numG1_append_one (hist : List (List Char)) (line : List Char) :
    numG1 (hist ++ [line]) =
      numG1 hist + (if startsWith (lchars "G1") line = true then 1 else 0) := by
  simp [numG1, List.countP_append, List.countP_cons]

theorem ge20_iff (k : ℕ) : decide (20 ≤ min 20 k) = decide (20 ≤ k) := by
  simp only [decide_eq_decide]
  omega

theorem eq19_iff (k : ℕ) : decide (min 20 k = 19) = decide (k = 19) := by
  simp only [decide_eq_decide]
  omega

theorem ckpt_stage_trace (env : Env) (ps : PS.State) (w : W) :
    (ckpt_stage env ps w).trace = w.trace ++ ckpt_events env ps w := by
  unfold ckpt_stage ckpt_events
  by_cases h1 : ckpt_cond env w = true <;>
    by_cases h2 : save19_cond env w = true <;>
    by_cases h3 : save29_cond env w = true <;>
    by_cases h4 : w.fs.gcode_coordinate_save = true <;>
    simp [h1, h2, h3, h4]

theorem ckpt_stage_st (env : Env) (ps : PS.State) (w : W) :
    (ckpt_stage env ps w).st = w.st := by
  unfold ckpt_stage
  by_cases h1 : ckpt_cond env w = true <;>
    by_cases h2 : save19_cond env w = true <;>
    by_cases h3 : save29_cond env w = true <;>
    by_cases h4 : w.fs.gcode_coordinate_save = true <;>
    simp [h1, h2, h3, h4]

theorem ckpt_stage_hist (env : Env) (ps : PS.State) (w : W) :
    (ckpt_stage env ps w).hist = w.hist := by
  unfold ckpt_stage
  by_cases h1 : ckpt_cond env w = true <;>
    by_cases h2 : save19_cond env w = true <;>
    by_cases h3 : save29_cond env w = true <;>
    by_cases h4 : w.fs.gcode_coordinate_save = true <;>
    simp [h1, h2, h3, h4]

theorem ckpt_stage_line_pos (env : Env) (ps : PS.State) (w : W) :
    (ckpt_stage env ps w).line_pos =
      (if ckpt_cond env w = true then (if w.line_pos = 1 then 2 else 1)
       else w.line_pos) := by
  unfold ckpt_stage
  by_cases h1 : ckpt_cond env w = true <;>
    by_cases h2 : save19_cond env w = true <;>
    by_cases h3 : save29_cond env w = true <;>
    by_cases h4 : w.fs.gcode_coordinate_save = true <;>
    simp [h1, h2, h3, h4]

theorem hasCkptWrite_ckpt_events (env : Env) (ps : PS.State) (w : W) :
    hasCkptWrite (ckpt_events env ps w) = ckpt_cond env w := by
  unfold ckpt_events hasCkptWrite
  by_cases h1 : ckpt_cond env w = true <;>
    by_cases h2 : save19_cond env w = true <;>
    by_cases h3 : save29_cond env w = true <;>
    by_cases h4 : w.fs.gcode_coordinate_save = true <;>
    simp [h1, h2, h3, h4]

theorem hasSaveFull_ckpt_events (env : Env) (ps : PS.State) (w : W) :
    hasSaveFull (ckpt_events env ps w) =
      (save19_cond env w || save29_cond env w) := by
  unfold ckpt_events hasSaveFull
  by_cases h1 : ckpt_cond env w = true <;>
    by_cases h2 : save19_cond env w = true <;>
    by_cases h3 : save29_cond env w = true <;>
    by_cases h4 : w.fs.gcode_coordinate_save = true <;>
    simp [h1, h2, h3, h4]

theorem ckpt_events_write_payload (env : Env) (ps : PS.State) (w : W)
    (fp lp : ℕ) (h : Ev.ckptWrite fp lp ∈ ckpt_events env ps w) :
    fp = w.st.file_position ∧ lp = w.line_pos ∧ ckpt_cond env w = true := by
  unfold ckpt_events at h
  by_cases h1 : ckpt_cond env w = true <;>
    by_cases h2 : save19_cond env w = true <;>
    by_cases h3 : save29_cond env w = true <;>
    by_cases h4 : w.fs.gcode_coordinate_save = true <;>
    simp [h1, h2, h3, h4] at h <;>
    exact ⟨h.1, h.2, h1⟩

theorem lastE_stage_facts (env : Env) (w : W) (line : List Char) :
    ∃ evs, (lastE_stage env w line).trace = w.trace ++ evs ∧
      hasCkptWrite evs = false ∧ hasSaveFull evs = false ∧
      (lastE_stage env w line).line_pos = w.line_pos ∧
      (lastE_stage env w line).hist = w.hist ∧
      (lastE_stage env w line).st.count = w.st.count ∧
      (lastE_stage env w line).st.count_G1 = w.st.count_G1 := by
  unfold lastE_stage
  simp only []
  repeat' split
  all_goals first
    | exact ⟨[], (List.append_nil _).symm, rfl, rfl, rfl, rfl, rfl, rfl⟩
    | exact ⟨[Ev.saveNameFan (stripBoth (fun c => c = '\n')
        (stripBoth (fun c => c = '\r') line))], rfl, rfl, rfl, rfl, rfl,
        rfl, rfl⟩

theorem run_scripts_facts (env : Env) (ss : List String) (w : W) :
    ∃ evs, (stateOfD (run_scripts env w ss)).trace = w.trace ++ evs ∧
      hasCkptWrite evs = false ∧ hasSaveFull evs = false ∧
      (stateOfD (run_scripts env w ss)).line_pos = w.line_pos ∧
      (stateOfD (run_scripts env w ss)).hist = w.hist ∧
      (stateOfD (run_scripts env w ss)).st = w.st := by
  induction ss generalizing w with
  | nil =>
    exact ⟨[], (List.append_nil _).symm, rfl, rfl, rfl, rfl, rfl⟩
  | cons s r ih =>
    obtain ⟨evs, htr, hck, hsf, hlp, hh, hst⟩ :=
      ih { w with script_idx := w.script_idx + 1,
                  trace := w.trace ++ [Ev.script s] }
    unfold run_scripts run_one_script
    simp only []
    cases ho : env.dispatch w.script_idx with
    | ok =>
      refine ⟨Ev.script s :: evs, ?_, ?_, ?_, hlp, hh, hst⟩
      · rw [htr]
        simp
      · simpa [hasCkptWrite] using hck
      · simpa [hasSaveFull] using hsf
    | err m =>
      exact ⟨[Ev.script s], rfl, rfl, rfl, rfl, rfl, rfl⟩
    | exc =>
      exact ⟨[Ev.script s], rfl, rfl, rfl, rfl, rfl, rfl⟩

theorem excursion_facts (env : Env) (w : W) :
    ∃ evs, (stateOfD (excursion env w)).trace = w.trace ++ evs ∧
      hasCkptWrite evs = false ∧ hasSaveFull evs = false ∧
      (stateOfD (excursion env w)).line_pos = w.line_pos ∧
      (stateOfD (excursion env w)).hist = w.hist ∧
      (stateOfD (excursion env w)).st = w.st := by
  unfold excursion
  simp only []
  obtain ⟨e1, h1tr, h1ck, h1sf, h1lp, h1h, h1st⟩ :=
    run_scripts_facts env
      ["G1 F" ++ toString env.extruder_speed ++ " E" ++
         pyFloatRepr (w.lastE + env.extruder),
       "M400",
       "G1 F3000 Z" ++ pyFloatRepr ((env.toolhead w.iter).2.2.1 +
         (env.z_upraise : ℚ)),
       "M400",
       "G0 X5 Y150 F15000",
       "M400"] w
  cases hrs : run_scripts env w
      ["G1 F" ++ toString env.extruder_speed ++ " E" ++
         pyFloatRepr (w.lastE + env.extruder),
       "M400",
       "G1 F3000 Z" ++ pyFloatRepr ((env.toolhead w.iter).2.2.1 +
         (env.z_upraise : ℚ)),
       "M400",
       "G0 X5 Y150 F15000",
       "M400"] with
  | inr p =>
    rw [hrs] at h1tr h1lp h1h h1st
    exact ⟨e1, h1tr, h1ck, h1sf, h1lp, h1h, h1st⟩
  | inl w1 =>
    rw [hrs] at h1tr h1lp h1h h1st
    simp only [stateOfD] at h1tr h1lp h1h h1st
    obtain ⟨e2, h2tr, h2ck, h2sf, h2lp, h2h, h2st⟩ :=
      run_scripts_facts env
        ["G0 X" ++ pyFloatRepr (env.toolhead w.iter).1 ++ " Y" ++
           pyFloatRepr (env.toolhead w.iter).2.1 ++ " F15000",
         "M400",
         "G1 F3000 Z" ++ pyFloatRepr (env.toolhead w.iter).2.2.1,
         "M400",
         "G1 F" ++ toString env.extruder_speed ++ " E" ++
           pyFloatRepr w.lastE]
        { w1 with trace := w1.trace ++ [Ev.capture] }
    refine ⟨e1 ++ ([Ev.capture] ++ e2), ?_, ?_, ?_, ?_, ?_, ?_⟩
    · rw [h2tr]
      simp only []
      rw [h1tr]
      simp [List.append_assoc]
    · rw [hasCkptWrite_append, hasCkptWrite_append, h1ck, h2ck]
      simp [hasCkptWrite]
    · rw [hasSaveFull_append, hasSaveFull_append, h1sf, h2sf]
      simp [hasSaveFull]
    · exact h2lp.trans h1lp
    · exact h2h.trans h1h
    · exact h2st.trans h1st

theorem excursion_inl_facts (env : Env) (wB w2 : W)
    (hex : excursion env wB = .inl w2) :
    ∃ evs, w2.trace = wB.trace ++ evs ∧
      hasCkptWrite evs = false ∧ hasSaveFull evs = false ∧
      w2.line_pos = wB.line_pos ∧ w2.hist = wB.hist ∧ w2.st = wB.st := by
  obtain ⟨evs, htr, hck, hsf, hlp, hh, hst⟩ := excursion_facts env wB
  rw [hex] at htr hlp hh hst
  simp only [stateOfD] at htr hlp hh hst
  exact ⟨evs, htr, hck, hsf, hlp, hh, hst⟩

theorem excursion_inr_facts (env : Env) (wB : W) (p : W × DOutcome)
    (hex : excursion env wB = .inr p) :
    ∃ evs, p.1.trace = wB.trace ++ evs ∧
      hasCkptWrite evs = false ∧ hasSaveFull evs = false ∧
      p.1.line_pos = wB.line_pos ∧ p.1.hist = wB.hist ∧ p.1.st = wB.st := by
  obtain ⟨evs, htr, hck, hsf, hlp, hh, hst⟩ := excursion_facts env wB
  rw [hex] at htr hlp hh hst
  simp only [stateOfD] at htr hlp hh hst
  exact ⟨evs, htr, hck, hsf, hlp, hh, hst⟩

theorem layer_stage_facts (env : Env) (w0 : W) (line : List Char) :
    ∃ evs, (stateOfD (layer_stage env w0 line)).trace = w0.trace ++ evs ∧
      hasCkptWrite evs = false ∧ hasSaveFull evs = false ∧
      (stateOfD (layer_stage env w0 line)).line_pos = w0.line_pos ∧
      (stateOfD (layer_stage env w0 line)).hist = w0.hist ∧
      (stateOfD (layer_stage env w0 line)).st = w0.st := by
  unfold layer_stage
  simp only []
  repeat' split
  all_goals
    first
      | exact ⟨[], (List.append_nil _).symm, rfl, rfl, rfl, rfl, rfl⟩
      | exact ⟨[Ev.captureAsync], rfl, rfl, rfl, rfl, rfl, rfl⟩
      | (rename_i w2 hex
         obtain ⟨evs, htr, hck, hsf, hlp, hh, hst⟩ :=
           excursion_inl_facts env _ w2 hex
         exact ⟨evs, htr, hck, hsf, hlp, hh, hst⟩)
      | (rename_i p hex
         obtain ⟨evs, htr, hck, hsf, hlp, hh, hst⟩ :=
           excursion_inr_facts env _ p hex
         exact ⟨evs, htr, hck, hsf, hlp, hh, hst⟩)

theorem error_abort_facts (w : W) (m : String) :
    ∃ evs, (error_abort w m).1.trace = w.trace ++ evs ∧
      hasCkptWrite evs = false ∧ hasSaveFull evs = false ∧
      (error_abort w m).1.line_pos = w.line_pos ∧
      (error_abort w m).1.hist = w.hist ∧
      (error_abort w m).1.st = w.st := by
  unfold error_abort
  refine ⟨(if w.fs.gcode_coordinate_save then [Ev.removeCkpt] else []) ++
      (if w.fs.print_file_name_save then [Ev.removeNameSave] else []),
    ?_, ?_, ?_, rfl, rfl, rfl⟩
  · simp [List.append_assoc]
  · by_cases h1 : w.fs.gcode_coordinate_save = true <;>
      by_cases h2 : w.fs.print_file_name_save = true <;>
      simp [h1, h2, hasCkptWrite]
  · by_cases h1 : w.fs.gcode_coordinate_save = true <;>
      by_cases h2 : w.fs.print_file_name_save = true <;>
      simp [h1, h2, hasSaveFull]

/-- One dispatch of a pending line: the new trace is the checkpoint
block's events followed by write-free events, line_pos toggles exactly
under the checkpoint guard, and the ghost-history invariant is
preserved. -/
theorem dispatch_line_facts (env : Env) (ps : PS.State) (w : W)
    (line : List Char) (nfp : ℕ) :
    ∃ evs,
      (stateOf (dispatch_line env ps w line nfp)).trace =
        w.trace ++ (ckpt_events env ps w ++ evs) ∧
      hasCkptWrite evs = false ∧ hasSaveFull evs = false ∧
      (stateOf (dispatch_line env ps w line nfp)).line_pos =
        (if ckpt_cond env w = true then (if w.line_pos = 1 then 2 else 1)
         else w.line_pos) ∧
      (histInvB w = true →
        histInvB (stateOf (dispatch_line env ps w line nfp)) = true) := by
  have h1tr := ckpt_stage_trace env ps w
  have h1st := ckpt_stage_st env ps w
  have h1h := ckpt_stage_hist env ps w
  have h1lp := ckpt_stage_line_pos env ps w
  obtain ⟨e2, h2tr, h2ck, h2sf, h2lp, h2h, h2c, h2g⟩ :=
    lastE_stage_facts env (ckpt_stage env ps w) line
  obtain ⟨e3, h3tr, h3ck, h3sf, h3lp, h3h, h3st⟩ :=
    layer_stage_facts env (lastE_stage env (ckpt_stage env ps w) line) line
  rw [h1tr] at h2tr
  rw [h2tr] at h3tr
  rw [h2lp, h1lp] at h3lp
  rw [h2h, h1h] at h3h
  have h3c : (stateOfD (layer_stage env
      (lastE_stage env (ckpt_stage env ps w) line) line)).st.count =
      w.st.count := by
    rw [h3st, h2c, h1st]
  have h3g : (stateOfD (layer_stage env
      (lastE_stage env (ckpt_stage env ps w) line) line)).st.count_G1 =
      w.st.count_G1 := by
    rw [h3st, h2g, h1st]
  unfold dispatch_line
  simp only []
  cases hls : layer_stage env (lastE_stage env (ckpt_stage env ps w) line)
      line with
  | inr p =>
    obtain ⟨we, o⟩ := p
    rw [hls] at h3tr h3lp h3h h3c h3g
    simp only [stateOfD] at h3tr h3lp h3h h3c h3g
    cases o with
    | ok =>
      simp only []
      simp only [stateOf]
      refine ⟨e2 ++ e3, ?_, ?_, ?_, ?_, ?_⟩
      · rw [h3tr]
        simp [List.append_assoc]
      · rw [hasCkptWrite_append, h2ck, h3ck]
        simp
      · rw [hasSaveFull_append, h2sf, h3sf]
        simp
      · exact h3lp
      · intro hi
        unfold histInvB at hi ⊢
        rw [h3c, h3g, h3h]
        exact hi
    | exc =>
      simp only []
      simp only [stateOf]
      refine ⟨e2 ++ e3, ?_, ?_, ?_, ?_, ?_⟩
      · rw [h3tr]
        simp [List.append_assoc]
      · rw [hasCkptWrite_append, h2ck, h3ck]
        simp
      · rw [hasSaveFull_append, h2sf, h3sf]
        simp
      · exact h3lp
      · intro hi
        unfold histInvB at hi ⊢
        rw [h3c, h3g, h3h]
        exact hi
    | err m =>
      simp only []
      simp only [stateOf]
      obtain ⟨eA, hAtr, hAck, hAsf, hAlp, hAh, hAst⟩ :=
        error_abort_facts we m
      refine ⟨e2 ++ (e3 ++ eA), ?_, ?_, ?_, ?_, ?_⟩
      · rw [hAtr, h3tr]
        simp [List.append_assoc]
      · rw [hasCkptWrite_append, hasCkptWrite_append, h2ck, h3ck, hAck]
        simp
      · rw [hasSaveFull_append, hasSaveFull_append, h2sf, h3sf, hAsf]
        simp
      · rw [hAlp]
        exact h3lp
      · intro hi
        unfold histInvB at hi ⊢
        rw [hAst, hAh, h3c, h3g, h3h]
        exact hi
  | inl w3 =>
    rw [hls] at h3tr h3lp h3h h3c h3g
    simp only [stateOfD] at h3tr h3lp h3h h3c h3g
    simp only []
    cases ho : env.dispatch w3.script_idx with
    | err m =>
      simp only []
      simp only [stateOf]
      obtain ⟨eA, hAtr, hAck, hAsf, hAlp, hAh, hAst⟩ :=
        error_abort_facts
          { w3 with script_idx := w3.script_idx + 1,
                    trace := w3.trace ++ [Ev.dispatch line (.err m)] } m
      simp only [] at hAtr hAlp hAh hAst
      refine ⟨e2 ++ (e3 ++ ([Ev.dispatch line (.err m)] ++ eA)),
        ?_, ?_, ?_, ?_, ?_⟩
      · rw [hAtr, h3tr]
        simp [List.append_assoc]
      · rw [hasCkptWrite_append, hasCkptWrite_append, hasCkptWrite_append,
          h2ck, h3ck, hAck]
        simp [hasCkptWrite]
      · rw [hasSaveFull_append, hasSaveFull_append, hasSaveFull_append,
          h2sf, h3sf, hAsf]
        simp [hasSaveFull]
      · rw [hAlp]
        exact h3lp
      · intro hi
        unfold histInvB at hi ⊢
        rw [hAst, hAh, h3c, h3g, h3h]
        exact hi
    | exc =>
      simp only []
      simp only [stateOf]
      refine ⟨e2 ++ (e3 ++ [Ev.dispatch line (.exc)]), ?_, ?_, ?_, ?_, ?_⟩
      · rw [h3tr]
        simp [List.append_assoc]
      · rw [hasCkptWrite_append, hasCkptWrite_append, h2ck, h3ck]
        simp [hasCkptWrite]
      · rw [hasSaveFull_append, hasSaveFull_append, h2sf, h3sf]
        simp [hasSaveFull]
      · exact h3lp
      · intro hi
        unfold histInvB at hi ⊢
        simp only []
        rw [h3c, h3g, h3h]
        exact hi
    | ok =>
      simp only []
      refine ⟨e2 ++ (e3 ++ [Ev.dispatch line (.ok)]), ?_, ?_, ?_, ?_, ?_⟩
      · repeat' split
        all_goals simp [stateOf, h3tr, List.append_assoc]
      · rw [hasCkptWrite_append, hasCkptWrite_append, h2ck, h3ck]
        simp [hasCkptWrite]
      · rw [hasSaveFull_append, hasSaveFull_append, h2sf, h3sf]
        simp [hasSaveFull]
      · rw [← h3lp]
        repeat' split
        all_goals simp [stateOf]
      · intro hi
        unfold histInvB at hi
        rw [Bool.and_eq_true, decide_eq_true_eq, decide_eq_true_eq] at hi
        obtain ⟨hic, hig⟩ := hi
        have hc3 : w3.st.count = w.hist.length := by rw [h3c, hic]
        have hg3 : w3.st.count_G1 = min 20 (numG1 w.hist) := by rw [h3g, hig]
        have hh3 : w3.hist = w.hist := h3h
        clear h1tr h1st h1h h1lp h2tr h2ck h2sf h2lp h2h h2c h2g h3ck h3sf
        clear h3tr h3lp h3st hls ho h3c h3g h3h hic hig
        unfold histInvB
        rw [Bool.and_eq_true, decide_eq_true_eq, decide_eq_true_eq]
        constructor
        · repeat' split
          all_goals simp_all [stateOf]
        · repeat' split
          all_goals (
            cases hb : startsWith (lchars "G1") line <;>
              ((try simp_all [stateOf, numG1_append_one]);
               (try omega)))

/-- The state with which the dispatch path is entered: cmd_from_sd set
and next_file_position advanced past the line, the line popped. -/
def entryW (w : W) (line : List Char) (rest : List (List Char)) : W :=
  { w with
    st := { w.st with
      cmd_from_sd := true,
      next_file_position := w.st.file_position + line.length + 1 },
    lines := rest }

/-- A loop iteration that does not reach the dispatch path appends no
checkpoint or filename-save events and leaves line_pos, the counters
and the ghost history unchanged. -/
theorem loop_step_quiet (env : Env) (ps : PS.State) (w : W)
    (hd : isDispatchIter env w = false) :
    hasCkptWrite (newEvents env ps w) = false ∧
    hasSaveFull (newEvents env ps w) = false ∧
    (stateOf (loop_step env ps w)).line_pos = w.line_pos ∧
    (stateOf (loop_step env ps w)).st.count = w.st.count ∧
    (stateOf (loop_step env ps w)).st.count_G1 = w.st.count_G1 ∧
    (stateOf (loop_step env ps w)).hist = w.hist := by
  unfold isDispatchIter at hd
  by_cases hmp : w.st.must_pause_work = true
  · have hr : loop_step env ps w = .inr (w, .paused) := by
      unfold loop_step
      rw [if_pos hmp]
    unfold newEvents
    rw [hr]
    simp [stateOf, hasCkptWrite, hasSaveFull]
  · have hmpf : w.st.must_pause_work = false := by
      cases hx : w.st.must_pause_work with
      | false => rfl
      | true => exact absurd hx hmp
    cases hl : w.lines with
    | cons line rest =>
      have hmx : env.mutex_busy w.iter = true := by
        rw [hmpf, hl] at hd
        simpa using hd
      have hr : loop_step env ps w =
          .inl { w with iter := w.iter + 1,
                        trace := w.trace ++ [Ev.reactorPause] } := by
        unfold loop_step
        rw [hl]
        simp [hmpf, hmx]
      unfold newEvents
      rw [hr]
      simp [stateOf, hasCkptWrite, hasSaveFull, List.drop_left]
    | nil =>
      cases hcf : w.st.current_file with
      | none =>
        have hr : loop_step env ps w = .inr (w, .genExc) := by
          unfold loop_step
          rw [hl, hcf]
          simp [hmpf]
        unfold newEvents
        rw [hr]
        simp [stateOf, hasCkptWrite, hasSaveFull]
      | some fh =>
        unfold newEvents loop_step
        rw [hl, hcf]
        simp only [hmpf]
        by_cases hde : ((fh.content.drop fh.read_pos).take 8192).isEmpty
            = true
        · by_cases h4 : w.fs.gcode_coordinate_save = true <;>
            by_cases h5 : w.fs.print_file_name_save = true <;>
            by_cases h6 : (!w.st.do_resume_status &&
              env.enable_delay_photography && env.serial_match) = true <;>
            simp [hde, h4, h5, h6, stateOf, hasCkptWrite, hasSaveFull,
              List.append_assoc, List.drop_left]
        · have hdef : ((fh.content.drop fh.read_pos).take 8192).isEmpty
              = false := by
            cases hx : ((fh.content.drop fh.read_pos).take 8192).isEmpty with
            | false => rfl
            | true => exact absurd hx hde
          simp [hdef, stateOf, hasCkptWrite, hasSaveFull, List.drop_left]


end WL

/-- C1: when dispatching a file-sourced line raises a gcode error, the
work loop terminates at once with that error, both the checkpoint file
and the filename-save file are removed, PrintStats records state
"error" with the error message, and the structured log line
print_error_exit|index|path|start|end|1|msg is emitted. -/
theorem C1_dispatch_error_exit (env : WL.Env) (fuel : ℕ) (st : VSD.State)
    (ps : PS.State) (fs : VSD.Fs) (m : String)
    (h : (WL.work_handler env fuel st ps fs).2.2 = .gcodeError m) :
    (WL.work_handler env fuel st ps fs).1.fs.gcode_coordinate_save = false ∧
    (WL.work_handler env fuel st ps fs).1.fs.print_file_name_save = false ∧
    (WL.work_handler env fuel st ps fs).2.1.state = "error" ∧
    (WL.work_handler env fuel st ps fs).2.1.error_message = m ∧
    WL.Ev.log ("print_error_exit|" ++ env.index ++ "|" ++
        (WL.work_handler env fuel st ps fs).1.end_filename ++ "|" ++
        toString env.start_time ++ "|" ++ toString env.end_time ++
        "|1|" ++ m) ∈ (WL.work_handler env fuel st ps fs).1.trace := by
  unfold WL.work_handler at h ⊢
  by_cases hs : (WL.work_preamble env st ps fs).seek_ok
  · simp only [hs, if_true] at h ⊢
    have hfs := WL.run_loop_error_fs env (WL.work_preamble env st ps fs).ps
      fuel (WL.work_preamble env st ps fs).w m h
    rw [h]
    obtain ⟨f1, f2, f3, f4⟩ := WL.finish_error env
      (WL.work_preamble env st ps fs).ps
      (WL.run_loop env (WL.work_preamble env st ps fs).ps fuel
        (WL.work_preamble env st ps fs).w).1 m
    have hnerr := WL.note_error_records m env.now
      (WL.work_preamble env st ps fs).ps
      (WL.work_preamble_pst env st ps fs)
    refine ⟨?_, ?_, ?_, ?_, ?_⟩
    · rw [f2, hfs]
    · rw [f2, hfs]
    · rw [f1]; exact hnerr.1
    · rw [f1]; exact hnerr.2
    · rw [f3]; exact f4
  · simp only [hs, if_false, Bool.false_eq_true] at h
    exact WL.ExitK.noConfusion h

/-- Witness for C1: a one-line file whose dispatch errors with "boom";
the run exits with that gcode error and all postconditions follow from
the theorem. -/
theorem C1_dispatch_error_exit_witness :
    (WL.work_handler
        { print_switch := false, enable_delay_photography := false,
          serial_match := false, timelapse_postion := 0, frequency := 1,
          z_upraise := 1, extruder := -3, extruder_speed := 2400,
          video0 := false, mutex_busy := fun _ => false,
          dispatch := fun _ => .err "boom", set_file_pos := fun _ => none,
          toolhead := fun _ => (0, 0, 0, 0), index := "1", start_time := 10,
          end_time := 20, info_file := none, ckpt_lines := [],
          evalRec := fun _ => none, now := 0, epos := 0, efactor := 1 }
        10
        { VSD.init with
            current_file := some ⟨"a.gcode", lchars "G1 X0\n", 0⟩,
            file_size := 6 }
        (PS.init none) ⟨false, false⟩).2.1.state = "error" ∧
    (WL.work_handler
        { print_switch := false, enable_delay_photography := false,
          serial_match := false, timelapse_postion := 0, frequency := 1,
          z_upraise := 1, extruder := -3, extruder_speed := 2400,
          video0 := false, mutex_busy := fun _ => false,
          dispatch := fun _ => .err "boom", set_file_pos := fun _ => none,
          toolhead := fun _ => (0, 0, 0, 0), index := "1", start_time := 10,
          end_time := 20, info_file := none, ckpt_lines := [],
          evalRec := fun _ => none, now := 0, epos := 0, efactor := 1 }
        10
        { VSD.init with
            current_file := some ⟨"a.gcode", lchars "G1 X0\n", 0⟩,
            file_size := 6 }
        (PS.init none) ⟨false, false⟩).1.fs.gcode_coordinate_save = false := by
  have h := C1_dispatch_error_exit
    { print_switch := false, enable_delay_photography := false,
      serial_match := false, timelapse_postion := 0, frequency := 1,
      z_upraise := 1, extruder := -3, extruder_speed := 2400,
      video0 := false, mutex_busy := fun _ => false,
      dispatch := fun _ => .err "boom", set_file_pos := fun _ => none,
      toolhead := fun _ => (0, 0, 0, 0), index := "1", start_time := 10,
      end_time := 20, info_file := none, ckpt_lines := [],
      evalRec := fun _ => none, now := 0, epos := 0, efactor := 1 }
    10
    { VSD.init with
        current_file := some ⟨"a.gcode", lchars "G1 X0\n", 0⟩,
        file_size := 6 }
    (PS.init none) ⟨false, false⟩ "boom" (by decide)
  exact ⟨h.2.2.1, h.1⟩

/-- C2: after do_cancel returns, the open file (if any) has been closed
with PrintStats notified of the cancel, file_position and file_size are
zero, and both the coordinate-save and filename-save files are absent. -/
theorem C2_cancel_postconditions (now : ℚ) (st : VSD.State) (ps : PS.State)
    (fs : VSD.Fs) :
    (VSD.do_cancel now st ps fs).st.file_position = 0 ∧
    (VSD.do_cancel now st ps fs).st.file_size = 0 ∧
    (VSD.do_cancel now st ps fs).st.current_file = none ∧
    (VSD.do_cancel now st ps fs).fs.gcode_coordinate_save = false ∧
    (VSD.do_cancel now st ps fs).fs.print_file_name_save = false ∧
    (st.current_file.isSome = true →
      (VSD.do_cancel now st ps fs).ps = PS.note_cancel now ps ∧
      VSD.CEv.noteCancel ∈ (VSD.do_cancel now st ps fs).evs) ∧
    (st.current_file = none → (VSD.do_cancel now st ps fs).ps = ps) := by
  unfold VSD.do_cancel
  cases hf : st.current_file with
  | none => simp [hf]
  | some f => simp [hf]

/-- Witness for C2: cancelling with an open empty file from the initial
states. -/
theorem C2_cancel_postconditions_witness :
    (VSD.do_cancel 0
        { VSD.init with current_file := some ⟨"a.gcode", [], 0⟩ }
        (PS.init none) ⟨true, true⟩).st.file_position = 0 ∧
    (VSD.do_cancel 0
        { VSD.init with current_file := some ⟨"a.gcode", [], 0⟩ }
        (PS.init none) ⟨true, true⟩).ps = PS.note_cancel 0 (PS.init none) := by
  refine ⟨(C2_cancel_postconditions 0 _ _ _).1, ?_⟩
  exact ((C2_cancel_postconditions 0
    { VSD.init with current_file := some ⟨"a.gcode", [], 0⟩ }
    (PS.init none) ⟨true, true⟩).2.2.2.2.2.1 rfl).1

/-- C3 counterexample: from the fresh executor, load a 10-byte file and
run M26 S20 (accepted: the timer is not armed and get_int only bounds S
below); the resulting reachable state has file_size 10 > 0 but progress
2, violating progress ≤ 1 as claimed. -/
theorem C3_progress_counterexample :
    (VSD.cmd_M26 20
        (VSD.load_file "box.gcode" (lchars "0123456789") VSD.init
          (PS.init none)).1).isSome = true ∧
    (((VSD.cmd_M26 20
        (VSD.load_file "box.gcode" (lchars "0123456789") VSD.init
          (PS.init none)).1).getD VSD.init).file_size = 10) ∧
    VSD.progress ((VSD.cmd_M26 20
        (VSD.load_file "box.gcode" (lchars "0123456789") VSD.init
          (PS.init none)).1).getD VSD.init) = 2 ∧
    ¬ (VSD.progress ((VSD.cmd_M26 20
        (VSD.load_file "box.gcode" (lchars "0123456789") VSD.init
          (PS.init none)).1).getD VSD.init) ≤ 1) := by
  refine ⟨rfl, rfl, ?_, ?_⟩
  · norm_num [VSD.progress, VSD.cmd_M26, VSD.load_file, VSD.init, lchars]
  · norm_num [VSD.progress, VSD.cmd_M26, VSD.load_file, VSD.init, lchars]

/-- C3 (amended): progress equals file_position / file_size whenever
file_size > 0 and is always non-negative; it is bounded by 1 only when
file_position ≤ file_size, a bound M26 S<n> (and set_file_position) do
not enforce. -/
theorem C3_progress_bounds (s : VSD.State) :
    0 ≤ VSD.progress s ∧
    (s.file_size ≠ 0 →
      VSD.progress s = (s.file_position : ℚ) / (s.file_size : ℚ)) ∧
    (s.file_position ≤ s.file_size → VSD.progress s ≤ 1) := by
  refine ⟨?_, ?_, ?_⟩
  · unfold VSD.progress
    split
    · positivity
    · exact le_refl 0
  · intro h
    unfold VSD.progress
    rw [if_pos h]
  · intro h
    unfold VSD.progress
    split
    · rename_i hs
      have hspos : (0 : ℚ) < (s.file_size : ℚ) := by
        exact_mod_cast Nat.pos_of_ne_zero hs
      rw [div_le_one hspos]
      exact_mod_cast h
    · norm_num

/-- Witness for C3 (amended) at the freshly loaded 10-byte file. -/
theorem C3_progress_bounds_witness :
    0 ≤ VSD.progress (VSD.load_file "box.gcode" (lchars "0123456789")
        VSD.init (PS.init none)).1 ∧
    VSD.progress (VSD.load_file "box.gcode" (lchars "0123456789")
        VSD.init (PS.init none)).1 = 0 / 10 ∧
    VSD.progress (VSD.load_file "box.gcode" (lchars "0123456789")
        VSD.init (PS.init none)).1 ≤ 1 := by
  refine ⟨(C3_progress_bounds _).1, ?_, ?_⟩
  · have := (C3_progress_bounds (VSD.load_file "box.gcode"
      (lchars "0123456789") VSD.init (PS.init none)).1).2.1 (by norm_num [VSD.load_file, VSD.init, lchars])
    simpa [VSD.load_file, VSD.init, lchars] using this
  · exact (C3_progress_bounds _).2.2 (by norm_num [VSD.load_file, VSD.init, lchars])

/-- C10: when no work timer is armed, do_pause (and therefore M25)
returns at once and leaves every executor field unchanged; in
particular must_pause_work stays clear. -/
theorem C10_do_pause_idle (s : VSD.State) (h : s.work_timer = false) :
    VSD.do_pause s = s ∧ VSD.cmd_M25 s = s := by
  unfold VSD.cmd_M25 VSD.do_pause
  rw [h]
  exact ⟨rfl, rfl⟩

/-- Witness for C10 at the initial executor state. -/
theorem C10_do_pause_idle_witness :
    VSD.do_pause VSD.init = VSD.init ∧ VSD.cmd_M25 VSD.init = VSD.init :=
  C10_do_pause_idle VSD.init rfl

/-- Witness for C8 at a concrete run: initial counter file 5, one
get_status call at eventtime 60 from the freshly initialised state. -/
theorem C8_lifetime_counter_monotone_witness :
    PS.fileVal (PS.init (some 5)) ≤
      PS.fileVal (PS.runStatus (PS.init (some 5)) [⟨60, 0, 1⟩]) :=
  (C8_lifetime_counter_monotone [⟨60, 0, 1⟩] (PS.init (some 5))
    (by norm_num [PS.WFB, PS.init, PS.reset, PS.get_last_total_print_time,
      PS.fileVal])
    (by norm_num [PS.pdOk, PS.status_pd, PS.status_track, PS.init, PS.reset,
      PS.get_last_total_print_time, PS.update_filament_usage,
      PS.time_paused])).2


/-- C4: with checkpointing (print_switch) enabled and the counters
tracking the dispatched history, one iteration of the work loop writes
a checkpoint record exactly when it dispatches a line after at least 20
G1 lines have been dispatched and with the command counter on a 9-tick;
the record carries the current file position and line_pos, and line_pos
alternates between 1 and 2 exactly at writes (it is untouched
otherwise); the filename-save file is refreshed with fan, filament and
duration exactly at dispatches with the G1 counter reading 19 or the
command counter on a 29-tick. -/
theorem C4_checkpoint_schedule (env : WL.Env) (ps : PS.State) (w : WL.W)
    (hps : env.print_switch = true) (hinv : WL.histInvB w = true) :
    WL.histInvB (WL.stateOf (WL.loop_step env ps w)) = true ∧
    WL.hasCkptWrite (WL.newEvents env ps w) =
      (WL.isDispatchIter env w && decide (20 ≤ WL.numG1 w.hist) &&
        decide (w.hist.length % 9 = 0)) ∧
    (∀ fp lp, WL.Ev.ckptWrite fp lp ∈ WL.newEvents env ps w →
      fp = w.st.file_position ∧ lp = w.line_pos ∧
      (WL.stateOf (WL.loop_step env ps w)).line_pos =
        (if w.line_pos = 1 then 2 else 1)) ∧
    (WL.hasCkptWrite (WL.newEvents env ps w) = false →
      (WL.stateOf (WL.loop_step env ps w)).line_pos = w.line_pos) ∧
    WL.hasSaveFull (WL.newEvents env ps w) =
      (WL.isDispatchIter env w &&
        (decide (WL.numG1 w.hist = 19) ||
          decide (w.hist.length % 29 = 0))) := by
  by_cases hd : WL.isDispatchIter env w = true
  case neg =>
    have hdf : WL.isDispatchIter env w = false := by
      cases hx : WL.isDispatchIter env w with
      | false => rfl
      | true => exact absurd hx hd
    obtain ⟨hck, hsf, hlp, hc, hg, hh⟩ := WL.loop_step_quiet env ps w hdf
    refine ⟨?_, ?_, ?_, ?_, ?_⟩
    · unfold WL.histInvB at hinv ⊢
      rw [hc, hg, hh]
      exact hinv
    · rw [hck, hdf]
      simp
    · intro fp lp hm
      exact absurd hm (WL.ckptWrite_not_mem _ fp lp hck)
    · intro _
      exact hlp
    · rw [hsf, hdf]
      simp
  case pos =>
    have hd' := hd
    unfold WL.isDispatchIter at hd'
    rw [Bool.and_eq_true, Bool.and_eq_true] at hd'
    obtain ⟨⟨hd1, hd2⟩, hd3⟩ := hd'
    have hmpf : w.st.must_pause_work = false := by
      revert hd1
      cases w.st.must_pause_work <;> simp
    have hmxf : env.mutex_busy w.iter = false := by
      revert hd3
      cases hx : env.mutex_busy w.iter <;> simp
    cases hl : w.lines with
    | nil =>
      rw [hl] at hd2
      simp at hd2
    | cons line rest =>
      have hr : WL.loop_step env ps w = WL.dispatch_line env ps
          (WL.entryW w line rest)
          line (w.st.file_position + line.length + 1) := by
        unfold WL.loop_step
        rw [hl]
        simp [hmpf, hmxf, WL.entryW]
      obtain ⟨evs, htr, hck, hsf, hlp, hiv⟩ :=
        WL.dispatch_line_facts env ps
          (WL.entryW w line rest)
          line (w.st.file_position + line.length + 1)
      have hinv' := hinv
      unfold WL.histInvB at hinv'
      rw [Bool.and_eq_true, decide_eq_true_eq, decide_eq_true_eq] at hinv'
      obtain ⟨hic, hig⟩ := hinv'
      have hcc : WL.ckpt_cond env (WL.entryW w line rest) =
          (decide (20 ≤ WL.numG1 w.hist) &&
            decide (w.hist.length % 9 = 0)) := by
        unfold WL.ckpt_cond WL.entryW
        simp [hps, hic, hig, WL.ge20_iff]
      have hs19 : WL.save19_cond env (WL.entryW w line rest) =
          decide (WL.numG1 w.hist = 19) := by
        unfold WL.save19_cond WL.entryW
        simp [hps, hig, WL.eq19_iff]
      have hs29 : WL.save29_cond env (WL.entryW w line rest) =
          decide (w.hist.length % 29 = 0) := by
        unfold WL.save29_cond WL.entryW
        simp [hps, hic]
      have hnew : WL.newEvents env ps w =
          WL.ckpt_events env ps (WL.entryW w line rest) ++ evs := by
        unfold WL.newEvents
        rw [hr, htr]
        simp [WL.entryW, List.drop_left]
      refine ⟨?_, ?_, ?_, ?_, ?_⟩
      · rw [hr]
        exact hiv hinv
      · rw [hnew, WL.hasCkptWrite_append, WL.hasCkptWrite_ckpt_events,
          hck, hcc, hd]
        simp
      · intro fp lp hm
        rw [hnew] at hm
        rcases List.mem_append.mp hm with hm1 | hm2
        · obtain ⟨hfp, hlpv, hcond⟩ :=
            WL.ckpt_events_write_payload env ps _ fp lp hm1
          refine ⟨hfp, hlpv, ?_⟩
          rw [hr, hlp, hcond]
          simp [WL.entryW]
        · exact absurd hm2 (WL.ckptWrite_not_mem _ fp lp hck)
      · intro h0
        rw [hnew, WL.hasCkptWrite_append, hck,
          WL.hasCkptWrite_ckpt_events] at h0
        simp only [Bool.or_false] at h0
        rw [hr, hlp, h0]
        simp [WL.entryW]
      · rw [hnew, WL.hasSaveFull_append, WL.hasSaveFull_ckpt_events,
          hsf, hs19, hs29, hd]
        simp

/-- A work-loop environment for exercising the checkpoint schedule:
checkpointing on, time-lapse off, dispatcher always succeeding, mutex
always free. -/
def c4env : WL.Env :=
  { print_switch := true, enable_delay_photography := false,
    serial_match := false, timelapse_postion := 0, frequency := 1,
    z_upraise := 0, extruder := 0, extruder_speed := 0, video0 := false,
    mutex_busy := fun _ => false, dispatch := fun _ => WL.DOutcome.ok,
    set_file_pos := fun _ => none, toolhead := fun _ => (0, 0, 0, 0),
    index := "1", start_time := 0, end_time := 0, info_file := none,
    ckpt_lines := [], evalRec := fun _ => none, now := 0, epos := 0,
    efactor := 1 }

/-- A loop state after 27 dispatched lines, all G1: the counters read
27 and 20 (saturated) and one split line is pending. -/
def c4w : WL.W :=
  { st := { VSD.init with
      count := 27,
      count_G1 := 20,
      current_file := some ⟨"a.gcode", lchars "G1 E2\n", 0⟩ },
    lines := [lchars "G1 E2"], pending := [], lastE := 0, line_pos := 1,
    layer_count := 0, video0_status := false, iter := 0, script_idx := 0,
    fs := ⟨true, true⟩, end_filename := "a.gcode", trace := [],
    hist := List.replicate 27 (lchars "G1 E1") }

theorem C4_checkpoint_schedule_witness :
    (c4env.print_switch = true ∧ WL.histInvB c4w = true) ∧
    WL.hasCkptWrite (WL.newEvents c4env (PS.init none) c4w) =
      (WL.isDispatchIter c4env c4w && decide (20 ≤ WL.numG1 c4w.hist) &&
        decide (c4w.hist.length % 9 = 0)) :=
  ⟨⟨rfl, by decide⟩,
   (C4_checkpoint_schedule c4env (PS.init none) c4w rfl (by decide)).2.1⟩

end Klippy
